import Mathlib

/-!
Verification development for the TMDiscord session and scoring engine.

The definitions below are a shallow embedding of the Python sources:
`src/cogs/character_loader.py` (content store: `Character`,
`CharacterLoader._validate_character`, `CharacterLoader._load_all_characters`),
`src/cogs/game_manager.py` (session engine: `GameSession`, `GameManager`),
and the durable tables touched by `src/cogs/database.py`.

Modelling conventions:
- Python dicts become association lists with in-place-overwrite `dset`,
  first-occurrence `derase` and `dget` lookup, matching dict semantics on
  unique-key dictionaries.
- Wall-clock timestamps (`datetime.now()`) become an explicit `Nat` tick
  passed into every operation that reads the clock.
- Python float arithmetic on percentages is modelled with exact rationals;
  the concrete scores involved are small integers, where the two agree.
- I/O (Discord transport, sqlite persistence) is modelled by explicit state:
  the database is a record of tables, and the reaper returns the list of
  user ids it would attempt to notify.
- `Database.complete_game` additionally appends the game id to a
  `completions` log; the log is a ghost observation of how often the
  operation was invoked and influences nothing else.
-/

namespace TMDiscord

/-! ## Dictionary helpers (Python dict as association list) -/

def dget {κ β : Type} [DecidableEq κ] (k : κ) : List (κ × β) → Option β
  | [] => none
  | (k2, v) :: rest => if k2 = k then some v else dget k rest

def dset {κ β : Type} [DecidableEq κ] (k : κ) (v : β) : List (κ × β) → List (κ × β)
  | [] => [(k, v)]
  | (k2, v2) :: rest => if k2 = k then (k, v) :: rest else (k2, v2) :: dset k v rest

def derase {κ β : Type} [DecidableEq κ] (k : κ) : List (κ × β) → List (κ × β)
  | [] => []
  | (k2, v2) :: rest => if k2 = k then rest else (k2, v2) :: derase k rest

/-- Keys of an association list are pairwise distinct (true of every Python dict). -/
def keysNodup {κ β : Type} (l : List (κ × β)) : Prop :=
  (l.map Prod.fst).Nodup

instance keysNodupDecidable {κ β : Type} [DecidableEq κ] (l : List (κ × β)) :
    Decidable (keysNodup l) :=
  inferInstanceAs (Decidable ((l.map Prod.fst).Nodup))

/-! ## Content model (`character_loader.py`, class `Character`)

Narrative-only fields (`name`, `title`, `starting_year`, `initial_capital`,
`key_principles`) never influence the engine logic under verification and are
omitted from the embedding. -/

/-- One entry of a decision `choices` dict. `score : Option Int` models the
presence or absence of the `score` key (`'score' in choice_data`). -/
structure ChoiceData where
  score : Option Int
  deriving DecidableEq, Repr

/-- One decision value, as consumed by the engine: the optional `choices`
dict and the optional `correct_choice` key. A Python decision dict that is
empty or lacks one of these keys maps to `none` in that field. -/
structure DecisionDef where
  choices : Option (List (String × ChoiceData))
  correct_choice : Option String
  deriving DecidableEq, Repr

/-- An `analysis_templates` bucket: `text` and `principles` entries. -/
structure AnalysisTemplate where
  text : String
  principles : List String
  deriving DecidableEq, Repr

/-- The three tiers of `analysis_templates`; `none` models a missing key. -/
structure AnalysisTemplates where
  excellent : Option AnalysisTemplate
  good : Option AnalysisTemplate
  needs_improvement : Option AnalysisTemplate
  deriving DecidableEq, Repr

/-- `Character` as built by `Character.__init__`: the decisions already
sorted by numeric key into `sorted_decisions`. -/
structure Character where
  id : String
  sorted_decisions : List DecisionDef
  analysis_templates : AnalysisTemplates
  deriving DecidableEq, Repr

/-- `Character.get_decision`: 1-based lookup, `None` out of range. -/
def Character.get_decision (c : Character) (number : Nat) : Option DecisionDef :=
  if number = 0 || number > c.sorted_decisions.length then none
  else c.sorted_decisions.get? (number - 1)

/-- `Character.get_total_decisions`. -/
def Character.get_total_decisions (c : Character) : Nat :=
  c.sorted_decisions.length

/-- `Character.get_choice_score`: 0 unless the decision exists, has a
`choices` dict containing `choice`, and that choice carries a `score` key. -/
def Character.get_choice_score (c : Character) (decision_number : Nat) (choice : String) : Int :=
  match c.get_decision decision_number with
  | none => 0
  | some d =>
    match d.choices with
    | none => 0
    | some cs =>
      match dget choice cs with
      | none => 0
      | some cd =>
        match cd.score with
        | none => 0
        | some s => s

/-- `Character.is_correct_choice`. -/
def Character.is_correct_choice (c : Character) (decision_number : Nat) (choice : String) : Bool :=
  match c.get_decision decision_number with
  | none => false
  | some d =>
    match d.correct_choice with
    | none => false
    | some cc => cc = choice

/-- `Character.get_analysis`: tier selection by percentage with built-in
default blurbs for missing tiers. -/
def Character.get_analysis (c : Character) (score_percentage : ℚ) : AnalysisTemplate :=
  if score_percentage ≥ 80 then
    c.analysis_templates.excellent.getD ⟨"Excellent performance!", []⟩
  else if score_percentage ≥ 60 then
    c.analysis_templates.good.getD ⟨"Good performance!", []⟩
  else
    c.analysis_templates.needs_improvement.getD ⟨"Needs improvement.", []⟩

/-! ## Game session (`game_manager.py`, class `GameSession`) -/

structure GameSession where
  id : String
  user_id : Nat
  character : Character
  game_id : Nat
  channel_id : Nat
  current_decision : Nat
  total_score : Int
  decisions_made : List (Nat × String)
  last_activity : Nat
  message_id : Option Nat
  deriving DecidableEq, Repr

/-- `GameSession.__init__` (the fresh uuid arrives as the `sid` argument,
the clock reading as `now`). -/
def GameSession.init (sid : String) (user_id : Nat) (character : Character)
    (game_id : Nat) (channel_id : Nat) (now : Nat) : GameSession :=
  { id := sid, user_id := user_id, character := character, game_id := game_id,
    channel_id := channel_id, current_decision := 1, total_score := 0,
    decisions_made := [], last_activity := now, message_id := none }

/-- `GameSession.make_decision`: rejects a `decision_number` different from
`current_decision` with score 0 and no state change; otherwise records the
choice, adds its score, advances the index and refreshes `last_activity`. -/
def GameSession.make_decision (s : GameSession) (decision_number : Nat) (choice : String)
    (now : Nat) : Int × GameSession :=
  if decision_number ≠ s.current_decision then
    (0, s)
  else
    let score := s.character.get_choice_score decision_number choice
    (score,
      { s with
        decisions_made := dset decision_number choice s.decisions_made,
        total_score := s.total_score + score,
        current_decision := s.current_decision + 1,
        last_activity := now })

/-- `GameSession.is_completed`. -/
def GameSession.is_completed (s : GameSession) : Bool :=
  s.current_decision > s.character.get_total_decisions

/-- The inner loop of `GameSession.get_max_possible_score`: running maximum
over the choices that carry a `score` key, starting from 0. -/
def decisionHighest (cs : List (String × ChoiceData)) : Int :=
  cs.foldl
    (fun acc p =>
      match p.snd.score with
      | some sc => if sc > acc then sc else acc
      | none => acc)
    0

/-- `GameSession.get_max_possible_score`: iterates decision numbers 1..total
through `get_decision`, adding each decision's highest scored choice. -/
def GameSession.get_max_possible_score (s : GameSession) : Int :=
  (List.range s.character.get_total_decisions).foldl
    (fun acc i =>
      match s.character.get_decision (i + 1) with
      | none => acc
      | some d =>
        match d.choices with
        | none => acc
        | some cs => acc + decisionHighest cs)
    0

/-- `GameSession.get_score_percentage` (float arithmetic modelled in ℚ). -/
def GameSession.get_score_percentage (s : GameSession) : ℚ :=
  let max_score := s.get_max_possible_score
  if max_score = 0 then 0
  else ((s.total_score : ℚ) / (max_score : ℚ)) * 100

/-- The dictionary returned by `GameSession.get_analysis`. -/
structure AnalysisResult where
  text : String
  principles : List String
  score : Int
  max_score : Int
  percentage : ℚ
  correct_decisions : Nat
  total_decisions : Nat
  accuracy : ℚ
  deriving DecidableEq, Repr

/-- `GameSession.get_analysis`. -/
def GameSession.get_analysis (s : GameSession) : AnalysisResult :=
  let score_percentage := s.get_score_percentage
  let analysis_template := s.character.get_analysis score_percentage
  let correct_decisions :=
    s.decisions_made.countP
      (fun p => s.character.is_correct_choice p.fst p.snd)
  let total_decisions := s.character.get_total_decisions
  let accuracy : ℚ :=
    if total_decisions > 0 then ((correct_decisions : ℚ) / (total_decisions : ℚ)) * 100 else 0
  { text := analysis_template.text,
    principles := analysis_template.principles,
    score := s.total_score,
    max_score := s.get_max_possible_score,
    percentage := score_percentage,
    correct_decisions := correct_decisions,
    total_decisions := total_decisions,
    accuracy := accuracy }

/-! ## Durable store (`database.py`, class `Database`)

Only the rows and columns the engine reads back or the claims observe are
modelled; sqlite row timestamps that nothing reads are dropped. -/

structure DBUser where
  username : String
  games_played : Nat
  total_score : Int
  last_played : Nat
  deriving DecidableEq, Repr

structure DBGame where
  user_id : Nat
  character_id : String
  total_score : Int
  completed : Bool
  deriving DecidableEq, Repr

/-- One row of the `decisions` table. -/
structure DBDecision where
  game_id : Nat
  decision_number : Nat
  choice_made : String
  score : Int
  deriving DecidableEq, Repr

/-- One row of the `active_sessions` table. -/
structure DBSessionRec where
  user_id : Nat
  game_id : Nat
  channel_id : Nat
  last_activity : Nat
  deriving DecidableEq, Repr

structure Database where
  users : List (Nat × DBUser)
  games : List (Nat × DBGame)
  decisions : List DBDecision
  active_sessions : List (String × DBSessionRec)
  next_game_id : Nat
  /-- Ghost log: game ids passed to `complete_game`, in call order. -/
  completions : List Nat
  deriving DecidableEq, Repr

/-- `Database.get_or_create_user`. -/
def Database.get_or_create_user (db : Database) (user_id : Nat) (username : String)
    (now : Nat) : Database :=
  match dget user_id db.users with
  | some _ => db
  | none =>
    { db with
      users := dset user_id ⟨username, 0, 0, now⟩ db.users }

/-- `Database.create_game`: touches `last_played`, inserts a fresh game row,
increments `games_played`, returns the new game id. -/
def Database.create_game (db : Database) (user_id : Nat) (character_id : String)
    (now : Nat) : Nat × Database :=
  let game_id := db.next_game_id
  let users1 :=
    match dget user_id db.users with
    | none => db.users
    | some u => dset user_id { u with last_played := now } db.users
  let users2 :=
    match dget user_id users1 with
    | none => users1
    | some u => dset user_id { u with games_played := u.games_played + 1 } users1
  (game_id,
    { db with
      users := users2,
      games := dset game_id ⟨user_id, character_id, 0, false⟩ db.games,
      next_game_id := db.next_game_id + 1 })

/-- `Database.create_session`: deletes any prior row for the user, inserts
the new row. -/
def Database.create_session (db : Database) (session_id : String) (user_id : Nat)
    (game_id : Nat) (channel_id : Nat) (now : Nat) : Database :=
  let cleared := db.active_sessions.filter (fun p => p.snd.user_id ≠ user_id)
  { db with
    active_sessions := dset session_id ⟨user_id, game_id, channel_id, now⟩ cleared }

/-- `Database.update_session_activity`. -/
def Database.update_session_activity (db : Database) (session_id : String)
    (now : Nat) : Database :=
  { db with
    active_sessions :=
      db.active_sessions.map
        (fun p => if p.fst = session_id then (p.fst, { p.snd with last_activity := now }) else p) }

/-- `Database.end_session`. -/
def Database.end_session (db : Database) (session_id : String) : Database :=
  { db with active_sessions := derase session_id db.active_sessions }

/-- `Database.record_decision`: inserts the decision row and adds the score
to the running game total. -/
def Database.record_decision (db : Database) (game_id : Nat) (decision_number : Nat)
    (choice : String) (score : Int) : Database :=
  { db with
    decisions := db.decisions ++ [⟨game_id, decision_number, choice, score⟩],
    games :=
      db.games.map
        (fun p =>
          if p.fst = game_id then (p.fst, { p.snd with total_score := p.snd.total_score + score })
          else p) }

/-- `Database.complete_game`: marks the game completed and folds its total
into the owning user lifetime score. In Python a missing game id raises; in
the reachable states proved about below the id is always present, and the
missing-id branch is modelled as leaving the tables unchanged. The ghost
`completions` log records the invocation either way. -/
def Database.complete_game (db : Database) (game_id : Nat) : Database :=
  match dget game_id db.games with
  | none => { db with completions := db.completions ++ [game_id] }
  | some g =>
    let users1 :=
      match dget g.user_id db.users with
      | none => db.users
      | some u => dset g.user_id { u with total_score := u.total_score + g.total_score } db.users
    { db with
      games := dset game_id { g with completed := true } db.games,
      users := users1,
      completions := db.completions ++ [game_id] }

/-! ## Session engine (`game_manager.py`, class `GameManager`) -/

/-- The mutable state of the `GameManager` cog. -/
structure GameManager where
  active_sessions : List (String × GameSession)
  user_sessions : List (Nat × String)
  deriving DecidableEq, Repr

/-- Engine plus durable store: the state every engine operation acts on. -/
structure SysState where
  gm : GameManager
  db : Database
  deriving DecidableEq, Repr

/-- `config.GAME_TIMEOUT` (seconds of inactivity before the reaper fires). -/
def GAME_TIMEOUT : Int := 300

namespace GameManager

/-- `GameManager.end_game_session`: existence-checked; on an unknown id the
Python method logs and returns, leaving every table unchanged. -/
def end_game_session (st : SysState) (session_id : String) (completed : Bool) : SysState :=
  match dget session_id st.gm.active_sessions with
  | none => st
  | some session =>
    let db1 :=
      if completed && !session.is_completed then st.db.complete_game session.game_id
      else st.db
    let db2 := db1.end_session session_id
    let user_sessions1 :=
      if dget session.user_id st.gm.user_sessions = some session_id then
        derase session.user_id st.gm.user_sessions
      else st.gm.user_sessions
    { gm :=
        { active_sessions := derase session_id st.gm.active_sessions,
          user_sessions := user_sessions1 },
      db := db2 }

/-- `GameManager.create_game_session`: looks the character up in the loader
table, writes the user and game rows, stores the fresh session, ends any
prior session of the same user, then registers the user mapping and the
durable session row. The fresh uuid arrives as `sid`, the Discord display
name as `username`, the clock as `now`. -/
def create_game_session (loader : List (String × Character)) (st : SysState)
    (user_id : Nat) (character_id : String) (channel_id : Nat)
    (sid : String) (username : String) (now : Nat) :
    Option GameSession × SysState :=
  match dget character_id loader with
  | none => (none, st)
  | some character =>
    let db1 := st.db.get_or_create_user user_id username now
    let (game_id, db2) := db1.create_game user_id character_id now
    let session := GameSession.init sid user_id character game_id channel_id now
    let st1 : SysState :=
      { gm := { st.gm with active_sessions := dset sid session st.gm.active_sessions },
        db := db2 }
    let st2 :=
      match dget user_id st1.gm.user_sessions with
      | none => st1
      | some old_session_id =>
        match dget old_session_id st1.gm.active_sessions with
        | none => st1
        | some _ => end_game_session st1 old_session_id false
    let st3 : SysState :=
      { st2 with gm := { st2.gm with user_sessions := dset user_id sid st2.gm.user_sessions } }
    let db3 := st3.db.create_session sid user_id game_id channel_id now
    (some session, { st3 with db := db3 })

/-- `GameManager.get_user_session`, including the self-healing deletion of a
stale user mapping. Returns the found session and the possibly-healed state. -/
def get_user_session (st : SysState) (user_id : Nat) : Option GameSession × SysState :=
  match dget user_id st.gm.user_sessions with
  | none => (none, st)
  | some session_id =>
    match dget session_id st.gm.active_sessions with
    | none =>
      (none,
        { st with gm := { st.gm with user_sessions := derase user_id st.gm.user_sessions } })
    | some session => (some session, st)

/-- `GameManager.make_decision`: the engine-level advance. Unknown session
ids yield the normal-shaped result `(0, false)` with no state change. On a
live session it calls `GameSession.make_decision` with
`session.current_decision - 1`, records the decision durably, touches the
durable activity stamp, and completes the durable game when the session
reports completion. -/
def make_decision (st : SysState) (session_id : String) (choice : String)
    (now : Nat) : (Int × Bool) × SysState :=
  match dget session_id st.gm.active_sessions with
  | none => ((0, false), st)
  | some session =>
    let (score, session1) := session.make_decision (session.current_decision - 1) choice now
    let db1 := st.db.record_decision session1.game_id (session1.current_decision - 1) choice score
    let db2 := db1.update_session_activity session_id now
    let is_completed := session1.is_completed
    let db3 := if is_completed then db2.complete_game session1.game_id else db2
    ((score, is_completed),
      { gm := { st.gm with active_sessions := dset session_id session1 st.gm.active_sessions },
        db := db3 })

/-- One pass of the body of `GameManager.cleanup_old_sessions`: end the
session, then — only if its id is still present, which it never is right
after the deletion — attempt the user notification. The returned list
accumulates the user ids a notification would be attempted for. -/
def cleanup_step (acc : SysState × List Nat) (session_id : String) : SysState × List Nat :=
  let st1 := end_game_session acc.fst session_id false
  match dget session_id st1.gm.active_sessions with
  | none => (st1, acc.snd)
  | some session => (st1, acc.snd ++ [session.user_id])

/-- `GameManager.cleanup_old_sessions` (one sweep at clock `now`): collects
the sessions idle strictly longer than `GAME_TIMEOUT`, ends each with
`completed := false`, and returns the state plus the notification attempts. -/
def cleanup_old_sessions (st : SysState) (now : Nat) : SysState × List Nat :=
  let sessions_to_remove :=
    (st.gm.active_sessions.filter
        (fun p => (now : Int) - (p.snd.last_activity : Int) > GAME_TIMEOUT)).map
      Prod.fst
  sessions_to_remove.foldl cleanup_step (st, [])

end GameManager

/-! ## Engine operation sequences -/

/-- One externally-triggered engine operation, with every environment input
(fresh uuid, clock reading, display name) carried in the operation. -/
inductive EngineOp where
  | start (user_id : Nat) (character_id : String) (channel_id : Nat)
      (sid : String) (username : String) (now : Nat)
  | advance (session_id : String) (choice : String) (now : Nat)
  | finish (session_id : String) (completed : Bool)
  | sweep (now : Nat)
  deriving DecidableEq, Repr

/-- Apply one operation to the state. -/
def step (loader : List (String × Character)) (st : SysState) : EngineOp → SysState
  | .start user_id character_id channel_id sid username now =>
    (GameManager.create_game_session loader st user_id character_id channel_id sid username now).snd
  | .advance session_id choice now => (GameManager.make_decision st session_id choice now).snd
  | .finish session_id completed => GameManager.end_game_session st session_id completed
  | .sweep now => (GameManager.cleanup_old_sessions st now).fst

/-- The state at process start: empty engine tables, empty database. -/
def initState : SysState :=
  { gm := { active_sessions := [], user_sessions := [] },
    db := { users := [], games := [], decisions := [], active_sessions := [],
            next_game_id := 1, completions := [] } }

/-- Run a sequence of engine operations from process start. -/
def run (loader : List (String × Character)) (ops : List EngineOp) : SysState :=
  ops.foldl (step loader) initState

/-! ## Content store (`character_loader.py`, class `CharacterLoader`)

A parsed-but-unvalidated YAML document is modelled field by field; an
`Option` field is `none` exactly when the corresponding key is absent. -/

structure RawChoice where
  text : Option String
  score : Option Int
  deriving DecidableEq, Repr

structure RawDecision where
  year : Option Int
  context : Option String
  question : Option String
  choices : Option (List (String × RawChoice))
  correct_choice : Option String
  deriving DecidableEq, Repr

structure RawCharacter where
  name : Option String
  title : Option String
  starting_year : Option Int
  initial_capital : Option Int
  key_principles : Option (List String)
  decisions : Option (List (String × RawDecision))
  analysis_templates : Option (List (String × AnalysisTemplate))
  deriving DecidableEq, Repr

/-- The presence check driven by `config.REQUIRED_CHARACTER_FIELDS`
(which lists `analysis_templates` among the required fields). -/
def required_character_fields_present (data : RawCharacter) : Bool :=
  data.name.isSome && data.title.isSome && data.starting_year.isSome &&
  data.initial_capital.isSome && data.key_principles.isSome &&
  data.decisions.isSome && data.analysis_templates.isSome

/-- The per-decision checks of `CharacterLoader._validate_character`:
presence of `config.REQUIRED_DECISION_FIELDS`, non-empty `choices`, and
membership of `correct_choice` among the choices. -/
def validate_decision (dec : RawDecision) : Bool :=
  dec.year.isSome && dec.context.isSome && dec.question.isSome &&
  dec.choices.isSome && dec.correct_choice.isSome &&
  !(dec.choices.getD []).isEmpty &&
  (dec.correct_choice.bind (fun cc => dget cc (dec.choices.getD []))).isSome

/-- `CharacterLoader._validate_character`. The trailing Python check on
`analysis_templates` only emits a warning and never rejects, so it does not
appear in the result. -/
def validate_character (data : RawCharacter) : Bool :=
  required_character_fields_present data &&
  !(data.decisions.getD []).isEmpty &&
  (data.decisions.getD []).all (fun p => validate_decision p.snd)

/-- The sort key of `Character.__init__`: numeric keys sort by value,
anything else sorts as 0. -/
def sortKey (k : String) : Nat :=
  (k.toNat?).getD 0

/-- Stable insertion into a list sorted by `key`. -/
def insertByKey {α : Type} (key : α → Nat) (x : α) : List α → List α
  | [] => [x]
  | y :: ys => if key y < key x then y :: insertByKey key x ys else x :: y :: ys

/-- Stable sort by `key` (models Python `sorted`). -/
def sortByKey {α : Type} (key : α → Nat) : List α → List α
  | [] => []
  | x :: xs => insertByKey key x (sortByKey key xs)

/-- Lower a raw decision to the engine view of a decision. -/
def mkDecisionDef (rd : RawDecision) : DecisionDef :=
  { choices := rd.choices.map (List.map (fun p => (p.fst, ⟨p.snd.score⟩))),
    correct_choice := rd.correct_choice }

/-- `Character.__init__` applied to a raw document: decisions sorted by
numeric key, analysis templates split into the three tier buckets. -/
def mkCharacter (character_id : String) (data : RawCharacter) : Character :=
  let templates := data.analysis_templates.getD []
  { id := character_id,
    sorted_decisions :=
      (sortByKey (fun p => sortKey p.fst) (data.decisions.getD [])).map
        (fun p => mkDecisionDef p.snd),
    analysis_templates :=
      { excellent := dget "excellent" templates,
        good := dget "good" templates,
        needs_improvement := dget "needs_improvement" templates } }

/-- `CharacterLoader._load_all_characters`: starts from an empty table and
admits exactly the files that validate, each under its own id. -/
def load_all_characters (files : List (String × RawCharacter)) :
    List (String × Character) :=
  files.foldl
    (fun acc p =>
      if validate_character p.snd then dset p.fst (mkCharacter p.fst p.snd) acc else acc)
    []

/-! ## Association-list lemmas -/

theorem dget_dset_self {κ β : Type} [DecidableEq κ] (k : κ) (v : β) (l : List (κ × β)) :
    dget k (dset k v l) = some v := by
  induction l with
  | nil => simp [dget, dset]
  | cons p rest ih =>
    obtain ⟨k2, v2⟩ := p
    by_cases h : k2 = k
    · simp [dset, h, dget]
    · simp [dset, h, dget, ih]

theorem dget_dset_ne {κ β : Type} [DecidableEq κ] {k k2 : κ} (v : β) (l : List (κ × β))
    (h : k2 ≠ k) : dget k2 (dset k v l) = dget k2 l := by
  induction l with
  | nil => simp [dget, dset, Ne.symm h]
  | cons p rest ih =>
    obtain ⟨k3, v3⟩ := p
    by_cases h3 : k3 = k
    · subst h3
      simp [dset, dget, Ne.symm h]
    · by_cases h4 : k3 = k2 <;> simp [dset, dget, h, h3, h4, ih]

theorem dget_derase_ne {κ β : Type} [DecidableEq κ] {k k2 : κ} (l : List (κ × β))
    (h : k2 ≠ k) : dget k2 (derase k l) = dget k2 l := by
  induction l with
  | nil => simp [derase]
  | cons p rest ih =>
    obtain ⟨k3, v3⟩ := p
    by_cases h3 : k3 = k
    · subst h3
      simp [derase, dget, Ne.symm h]
    · by_cases h4 : k3 = k2 <;> simp [derase, dget, h, h3, h4, ih]


theorem dget_eq_none_iff {κ β : Type} [DecidableEq κ] (k : κ) (l : List (κ × β)) :
    dget k l = none ↔ k ∉ l.map Prod.fst := by
  induction l with
  | nil => simp [dget]
  | cons p rest ih =>
    obtain ⟨k2, v2⟩ := p
    by_cases h2 : k2 = k
    · simp [dget, h2]
    · simp [dget, h2, ih, Ne.symm h2]

theorem keys_dset_of_mem {κ β : Type} [DecidableEq κ] (k : κ) (v : β) (l : List (κ × β))
    (h : k ∈ l.map Prod.fst) : (dset k v l).map Prod.fst = l.map Prod.fst := by
  induction l with
  | nil => simp at h
  | cons p rest ih =>
    obtain ⟨k2, v2⟩ := p
    by_cases h2 : k2 = k
    · simp [dset, h2]
    · simp only [List.map_cons, List.mem_cons] at h
      rcases h with h | h
      · exact absurd h.symm h2
      · simp [dset, h2, ih h]

theorem keys_dset_of_not_mem {κ β : Type} [DecidableEq κ] (k : κ) (v : β) (l : List (κ × β))
    (h : k ∉ l.map Prod.fst) : (dset k v l).map Prod.fst = l.map Prod.fst ++ [k] := by
  induction l with
  | nil => simp [dset]
  | cons p rest ih =>
    obtain ⟨k2, v2⟩ := p
    simp only [List.map_cons, List.mem_cons] at h
    push_neg at h
    simp [dset, Ne.symm h.1, ih h.2]

theorem keysNodup_dset {κ β : Type} [DecidableEq κ] (k : κ) (v : β) (l : List (κ × β))
    (h : keysNodup l) : keysNodup (dset k v l) := by
  by_cases hm : k ∈ l.map Prod.fst
  · unfold keysNodup
    rw [keys_dset_of_mem k v l hm]
    exact h
  · unfold keysNodup
    rw [keys_dset_of_not_mem k v l hm]
    refine List.Nodup.append h (List.nodup_singleton k) ?_
    intro a ha hb
    simp only [List.mem_singleton] at hb
    subst hb
    exact hm ha

theorem derase_sublist {κ β : Type} [DecidableEq κ] (k : κ) (l : List (κ × β)) :
    (derase k l).Sublist l := by
  induction l with
  | nil => simp [derase]
  | cons p rest ih =>
    obtain ⟨k2, v2⟩ := p
    by_cases h2 : k2 = k
    · simp only [derase, if_pos h2]
      exact List.sublist_cons_self _ _
    · simp only [derase, if_neg h2]
      exact ih.cons₂ _

theorem keysNodup_derase {κ β : Type} [DecidableEq κ] (k : κ) (l : List (κ × β))
    (h : keysNodup l) : keysNodup (derase k l) :=
  h.sublist (List.Sublist.map Prod.fst (derase_sublist k l))

theorem mem_derase {κ β : Type} [DecidableEq κ] {k : κ} {p : κ × β} {l : List (κ × β)}
    (h : p ∈ derase k l) : p ∈ l :=
  (derase_sublist k l).mem h

theorem dget_derase_self {κ β : Type} [DecidableEq κ] (k : κ) (l : List (κ × β))
    (h : keysNodup l) : dget k (derase k l) = none := by
  induction l with
  | nil => simp [derase, dget]
  | cons p rest ih =>
    obtain ⟨k2, v2⟩ := p
    simp only [keysNodup, List.map_cons, List.nodup_cons] at h
    by_cases h2 : k2 = k
    · subst h2
      simp only [derase, if_pos rfl]
      exact (dget_eq_none_iff k2 rest).mpr h.1
    · simp only [derase, if_neg h2, dget, if_neg h2]
      exact ih h.2

theorem dset_eq_append {κ β : Type} [DecidableEq κ] (k : κ) (v : β) (l : List (κ × β))
    (h : dget k l = none) : dset k v l = l ++ [(k, v)] := by
  induction l with
  | nil => simp [dset]
  | cons p rest ih =>
    obtain ⟨k2, v2⟩ := p
    by_cases h2 : k2 = k
    · simp [dget, h2] at h
    · simp only [dget, if_neg h2] at h
      simp [dset, h2, ih h]

theorem dset_eq_self {κ β : Type} [DecidableEq κ] {k : κ} {v : β} {l : List (κ × β)}
    (h : dget k l = some v) : dset k v l = l := by
  induction l with
  | nil => simp [dget] at h
  | cons p rest ih =>
    obtain ⟨k2, v2⟩ := p
    by_cases h2 : k2 = k
    · simp only [dget, if_pos h2, Option.some_inj] at h
      subst h2
      subst h
      simp [dset]
    · simp only [dget, if_neg h2] at h
      simp [dset, h2, ih h]

theorem mem_of_dget {κ β : Type} [DecidableEq κ] {k : κ} {v : β} {l : List (κ × β)}
    (h : dget k l = some v) : (k, v) ∈ l := by
  induction l with
  | nil => simp [dget] at h
  | cons p rest ih =>
    obtain ⟨k2, v2⟩ := p
    by_cases h2 : k2 = k
    · simp only [dget, if_pos h2, Option.some_inj] at h
      subst h2
      subst h
      simp
    · simp only [dget, if_neg h2] at h
      exact List.mem_cons_of_mem _ (ih h)

theorem mem_dset {κ β : Type} [DecidableEq κ] {k : κ} {v : β} {p : κ × β} {l : List (κ × β)}
    (h : p ∈ dset k v l) : p = (k, v) ∨ p ∈ l := by
  induction l with
  | nil => simpa [dset] using h
  | cons q rest ih =>
    obtain ⟨k2, v2⟩ := q
    by_cases h2 : k2 = k
    · simp only [dset, if_pos h2, List.mem_cons] at h
      rcases h with h | h
      · exact Or.inl h
      · exact Or.inr (List.mem_cons_of_mem _ h)
    · simp only [dset, if_neg h2, List.mem_cons] at h
      rcases h with h | h
      · exact Or.inr (by simp [h])
      · rcases ih h with h | h
        · exact Or.inl h
        · exact Or.inr (List.mem_cons_of_mem _ h)

theorem dget_append_of_none {κ β : Type} [DecidableEq κ] (k : κ) (l1 l2 : List (κ × β))
    (h : dget k l1 = none) : dget k (l1 ++ l2) = dget k l2 := by
  induction l1 with
  | nil => simp
  | cons p rest ih =>
    obtain ⟨k2, v2⟩ := p
    by_cases h2 : k2 = k
    · simp [dget, h2] at h
    · simp only [dget, if_neg h2] at h
      simp only [List.cons_append, dget, if_neg h2]
      exact ih h

theorem derase_append_left {κ β : Type} [DecidableEq κ] {k : κ} {v : β} (l1 l2 : List (κ × β))
    (h : dget k l1 = some v) : derase k (l1 ++ l2) = derase k l1 ++ l2 := by
  induction l1 with
  | nil => simp [dget] at h
  | cons p rest ih =>
    obtain ⟨k2, v2⟩ := p
    by_cases h2 : k2 = k
    · simp [derase, h2]
    · simp only [dget, if_neg h2] at h
      simp [derase, h2, ih h]

theorem countP_derase {κ β : Type} [DecidableEq κ] {k : κ} {v : β} {l : List (κ × β)}
    (f : κ × β → Bool) (h : dget k l = some v) :
    (derase k l).countP f + (if f (k, v) then 1 else 0) = l.countP f := by
  induction l with
  | nil => simp [dget] at h
  | cons p rest ih =>
    obtain ⟨k2, v2⟩ := p
    by_cases h2 : k2 = k
    · simp only [dget, if_pos h2, Option.some_inj] at h
      subst h2
      subst h
      simp [derase, List.countP_cons]
    · simp only [dget, if_neg h2] at h
      simp only [derase, if_neg h2, List.countP_cons]
      have := ih h
      omega

theorem countP_eq_one_of_unique {κ β : Type} [DecidableEq κ] {k : κ} {v : β}
    {l : List (κ × β)} (f : κ × β → Bool) (hn : keysNodup l) (hg : dget k l = some v)
    (hu : ∀ p ∈ l, f p → p.fst = k) (hf : f (k, v) = true) : l.countP f = 1 := by
  induction l with
  | nil => simp [dget] at hg
  | cons p rest ih =>
    obtain ⟨k2, v2⟩ := p
    simp only [keysNodup, List.map_cons, List.nodup_cons] at hn
    by_cases h2 : k2 = k
    · simp only [dget, if_pos h2, Option.some_inj] at hg
      subst h2
      subst hg
      have hzero : rest.countP f = 0 := by
        rw [List.countP_eq_zero]
        intro q hq hfq
        exact hn.1 (hu q (List.mem_cons_of_mem _ hq) hfq ▸ List.mem_map_of_mem Prod.fst hq)
      simp [List.countP_cons, hf, hzero]
    · simp only [dget, if_neg h2] at hg
      have hf2 : f (k2, v2) = false := by
        by_contra hc
        exact h2 (hu (k2, v2) (List.mem_cons_self _ _) (by simpa using hc))
      simp only [List.countP_cons, hf2]
      simpa using ih hn.2 hg (fun q hq => hu q (List.mem_cons_of_mem _ hq))

/-! ## Scenario fixtures

The two-decision scenario character of spec section 8 ("Alice": decision 1
choices a=10/b=4 correct a, decision 2 choices a=5/b=20 correct b), plus the
states it produces under the engine operations used in the theorems below. -/

def aliceChar : Character :=
  { id := "alice",
    sorted_decisions :=
      [ { choices := some [("a", ⟨some 10⟩), ("b", ⟨some 4⟩)], correct_choice := some "a" },
        { choices := some [("a", ⟨some 5⟩), ("b", ⟨some 20⟩)], correct_choice := some "b" } ],
    analysis_templates := { excellent := none, good := none, needs_improvement := none } }

def scenarioLoader : List (String × Character) := [("alice", aliceChar)]

/-- The session object created by the first `start` below (game id 1). -/
def sAlice : GameSession := GameSession.init "s1" 7 aliceChar 1 99 0

/-- One user started one game. -/
def stA : SysState := run scenarioLoader [.start 7 "alice" 99 "s1" "u7" 0]

/-- The same user started a second game, superseding the first. -/
def stB : SysState :=
  run scenarioLoader [.start 7 "alice" 99 "s1" "u7" 0, .start 7 "alice" 99 "s2" "u7" 10]

/-- Two users, one idle since tick 0, one active at tick 100. -/
def stC : SysState :=
  run scenarioLoader [.start 7 "alice" 99 "s1" "u7" 0, .start 8 "alice" 99 "s2" "u8" 100]

/-! ## Spec-side comparison definitions

These two definitions are written from the spec text of section 4.2, not
from the code; they exist only to be compared against the code-level
operations in the refinement-style claims about typed failures. -/

inductive AdvanceOutcome where
  | ok (scoreDelta : Int) (completed : Bool)
  | sessionNotFound
  deriving DecidableEq, Repr

/-- The advance outcome the spec text prescribes: a typed `SessionNotFound`
failure on an unknown session id, the normal pair otherwise. -/
def advance_outcome_specified (st : SysState) (session_id choice : String)
    (now : Nat) : AdvanceOutcome :=
  match dget session_id st.gm.active_sessions with
  | none => .sessionNotFound
  | some _ =>
    .ok (GameManager.make_decision st session_id choice now).fst.fst
      (GameManager.make_decision st session_id choice now).fst.snd

inductive EndOutcome where
  | ok
  | sessionNotFound
  deriving DecidableEq, Repr

/-- The endSession outcome the spec text prescribes: a typed
`SessionNotFound` failure on an unknown session id. -/
def end_outcome_specified (st : SysState) (session_id : String) : EndOutcome :=
  match dget session_id st.gm.active_sessions with
  | none => .sessionNotFound
  | some _ => .ok

/-! ## Shared engine lemmas -/

/-- The engine-level advance on an unknown session id is the no-op normal
result, not a failure. -/
theorem make_decision_not_found (st : SysState) (sid choice : String) (t : Nat)
    (h : dget sid st.gm.active_sessions = none) :
    GameManager.make_decision st sid choice t = ((0, false), st) := by
  simp [GameManager.make_decision, h]

/-- The engine-level end on an unknown session id is a silent no-op. -/
theorem end_game_session_not_found (st : SysState) (sid : String) (b : Bool)
    (h : dget sid st.gm.active_sessions = none) :
    GameManager.end_game_session st sid b = st := by
  simp [GameManager.end_game_session, h]

/-! ## Claims -/

/-- Claim C1 (code bug). The claim describes `advance` awarding the current
decision score and moving the index forward (+10 then +20, index 1→2→3,
completed). The code instead calls `GameSession.make_decision` with
`session.current_decision - 1`, which that method rejects, so the engine
advance on the scenario session returns `(0, false)`, records nothing in
memory, leaves the index at 1, and never reports completion; the session
level operation, fed the current index itself, behaves exactly as the claim
says, which isolates the off-by-one at the call site. -/
theorem C1_advance_off_by_one_evidence :
    (GameManager.make_decision stA "s1" "a" 1).fst = (0, false) ∧
    ((GameManager.make_decision stA "s1" "a" 1).snd.gm.active_sessions.map
        (fun p => (p.fst, p.snd.current_decision, p.snd.total_score, p.snd.decisions_made)))
      = [("s1", 1, 0, ([] : List (Nat × String)))] ∧
    (GameManager.make_decision (GameManager.make_decision stA "s1" "a" 1).snd "s1" "b" 2).fst
      = (0, false) ∧
    (sAlice.make_decision 1 "a" 1).fst = 10 ∧
    (sAlice.make_decision 1 "a" 1).snd.current_decision = 2 ∧
    (sAlice.make_decision 1 "a" 1).snd.total_score = 10 ∧
    ((sAlice.make_decision 1 "a" 1).snd.make_decision 2 "b" 2).fst = 20 ∧
    ((sAlice.make_decision 1 "a" 1).snd.make_decision 2 "b" 2).snd.current_decision = 3 ∧
    ((sAlice.make_decision 1 "a" 1).snd.make_decision 2 "b" 2).snd.is_completed = true := by
  decide

/-- Claim C2 (code bug). The unrecognized-key leniency is real at the
session level: fed the current index and the unknown key "z",
`GameSession.make_decision` scores 0, records the pick and advances 1→2.
But the engine-level `advance` the claim speaks about passes
`current_decision - 1`, so it returns score 0 while leaving the index at 1
and recording nothing, contradicting the claimed "still advances
currentDecisionIndex by 1". -/
theorem C2_unknown_choice_evidence :
    (GameManager.make_decision stA "s1" "z" 1).fst = (0, false) ∧
    ((GameManager.make_decision stA "s1" "z" 1).snd.gm.active_sessions.map
        (fun p => (p.fst, p.snd.current_decision, p.snd.decisions_made)))
      = [("s1", 1, ([] : List (Nat × String)))] ∧
    (sAlice.make_decision 1 "z" 5).fst = 0 ∧
    (sAlice.make_decision 1 "z" 5).snd.current_decision = 2 ∧
    (sAlice.make_decision 1 "z" 5).snd.decisions_made = [(1, "z")] ∧
    (sAlice.make_decision 1 "z" 5).snd.total_score = 0 := by
  decide

/-- Claim C6, counterexample. On an unknown session id the code advance
returns the normal-shaped pair `(0, false)` with the state untouched — the
very value a live-session advance also returns — and the code end is a
silent no-op, while the spec-side outcomes prescribe a typed
`SessionNotFound` failure for both; so neither call "fails with
SessionNotFound rather than returning a normal result". -/
theorem C6_counterexample :
    advance_outcome_specified initState "ghost" "a" 0 = AdvanceOutcome.sessionNotFound ∧
    GameManager.make_decision initState "ghost" "a" 0 = ((0, false), initState) ∧
    (GameManager.make_decision stA "s1" "a" 1).fst = (0, false) ∧
    end_outcome_specified initState "ghost" = EndOutcome.sessionNotFound ∧
    GameManager.end_game_session initState "ghost" true = initState := by
  refine ⟨by decide, ?_, by decide, by decide, ?_⟩
  · exact make_decision_not_found initState "ghost" "a" 0 (by decide)
  · exact end_game_session_not_found initState "ghost" true (by decide)

/-- Claim C6, amended: `advance` on an unknown session id returns the
normal result `(0, false)` and changes nothing, and `end_game_session` on
an unknown session id returns with nothing removed — both are logged
no-ops, not typed SessionNotFound failures. -/
theorem C6_amended_unknown_session_noop :
    ∀ (st : SysState) (sid choice : String) (t : Nat) (b : Bool),
      dget sid st.gm.active_sessions = none →
        GameManager.make_decision st sid choice t = ((0, false), st) ∧
        GameManager.end_game_session st sid b = st := by
  intro st sid choice t b h
  exact ⟨make_decision_not_found st sid choice t h, end_game_session_not_found st sid b h⟩

theorem C6_amended_witness :
    dget "ghost" initState.gm.active_sessions = none ∧
    GameManager.make_decision initState "ghost" "x" 3 = ((0, false), initState) ∧
    GameManager.end_game_session initState "ghost" false = initState := by
  have h := C6_amended_unknown_session_noop initState "ghost" "x" 3 false (by decide)
  exact ⟨by decide, h.1, h.2⟩

/-- Claim C10: `GameSession.make_decision` called with a decision number
other than the current index returns score 0 and returns the session value
unchanged in every field. -/
theorem C10_wrong_decision_number_frame :
    ∀ (s : GameSession) (decision_number : Nat) (choice : String) (now : Nat),
      decision_number ≠ s.current_decision →
        s.make_decision decision_number choice now = (0, s) ∧
        (s.make_decision decision_number choice now).snd.total_score = s.total_score ∧
        (s.make_decision decision_number choice now).snd.current_decision = s.current_decision ∧
        (s.make_decision decision_number choice now).snd.decisions_made = s.decisions_made ∧
        (s.make_decision decision_number choice now).snd.last_activity = s.last_activity := by
  intro s n choice now h
  have he : s.make_decision n choice now = (0, s) := by
    simp [GameSession.make_decision, h]
  exact ⟨he, by rw [he], by rw [he], by rw [he], by rw [he]⟩

theorem C10_wrong_decision_number_frame_witness :
    (3 : Nat) ≠ sAlice.current_decision ∧ sAlice.make_decision 3 "a" 9 = (0, sAlice) :=
  ⟨by decide, (C10_wrong_decision_number_frame sAlice 3 "a" 9 (by decide)).1⟩

/-! ## The idle reaper (claim C7) -/

/-- Ending a session preserves distinctness of live session ids. -/
theorem end_game_session_keysNodup (st : SysState) (sid : String) (b : Bool)
    (h : keysNodup st.gm.active_sessions) :
    keysNodup (GameManager.end_game_session st sid b).gm.active_sessions := by
  unfold GameManager.end_game_session
  cases hg : dget sid st.gm.active_sessions with
  | none => simpa using h
  | some s =>
    simp only
    exact keysNodup_derase _ _ h

/-- Right after `end_game_session` removed a session, its id no longer
resolves — which is why the notification double-check in the reaper can
never succeed. -/
theorem dget_end_game_session_self (st : SysState) (sid : String) (b : Bool)
    (h : keysNodup st.gm.active_sessions) :
    dget sid (GameManager.end_game_session st sid b).gm.active_sessions = none := by
  unfold GameManager.end_game_session
  cases hg : dget sid st.gm.active_sessions with
  | none => simpa using hg
  | some s =>
    simp only
    exact dget_derase_self _ _ h

theorem cleanup_step_no_notify (acc : SysState × List Nat) (sid : String)
    (h : keysNodup acc.fst.gm.active_sessions) :
    GameManager.cleanup_step acc sid =
      (GameManager.end_game_session acc.fst sid false, acc.snd) := by
  simp only [GameManager.cleanup_step, dget_end_game_session_self acc.fst sid false h]

theorem cleanup_fold_no_notify :
    ∀ (R : List String) (st : SysState) (ns : List Nat),
      keysNodup st.gm.active_sessions →
      (R.foldl GameManager.cleanup_step (st, ns)).snd = ns := by
  intro R
  induction R with
  | nil => intro st ns _; rfl
  | cons sid rest ih =>
    intro st ns h
    rw [List.foldl_cons, cleanup_step_no_notify (st, ns) sid h]
    exact ih _ ns (end_game_session_keysNodup st sid false h)

/-- Claim C7 (code bug). The sweep does end, with completed=false, exactly
the sessions idle strictly longer than the timeout (in the fixture, s1 idle
for 400 > 300 is removed and its user lookup turns empty, while s2 idle for
exactly 300 survives), but the notification the claim promises is never
attempted for any state: the reaper re-checks that the id is still live
right after deleting it, so the notify branch is unreachable and the
attempted-notification list is always empty. -/
theorem C7_reaper_never_notifies :
    (∀ (st : SysState) (now : Nat), keysNodup st.gm.active_sessions →
        (GameManager.cleanup_old_sessions st now).snd = []) ∧
    ((GameManager.cleanup_old_sessions stC 400).fst.gm.active_sessions.map Prod.fst
      = ["s2"]) ∧
    ((GameManager.get_user_session (GameManager.cleanup_old_sessions stC 400).fst 7).fst
      = none) ∧
    (((GameManager.get_user_session (GameManager.cleanup_old_sessions stC 400).fst 8).fst).map
        GameSession.id = some "s2") ∧
    ((GameManager.cleanup_old_sessions stC 400).snd = []) := by
  refine ⟨?_, by decide, by decide, by decide, by decide⟩
  intro st now h
  unfold GameManager.cleanup_old_sessions
  exact cleanup_fold_no_notify _ st [] h

theorem C7_reaper_never_notifies_witness :
    keysNodup stC.gm.active_sessions ∧
    (GameManager.cleanup_old_sessions stC 400).snd = [] :=
  ⟨by decide, C7_reaper_never_notifies.1 stC 400 (by decide)⟩

/-! ## Superseding a session (claim C3) -/

/-- Claim C3, counterexample to the claim as stated: after the same user
starts a second session, the old session is indeed gone from the live
table, but the subsequent advance on the old id does not fail with a typed
SessionNotFound — it returns the normal-shaped result `(0, false)` with the
state unchanged, where the spec-side outcome prescribes the typed failure. -/
theorem C3_counterexample :
    dget "s1" stB.gm.active_sessions = none ∧
    advance_outcome_specified stB "s1" "a" 11 = AdvanceOutcome.sessionNotFound ∧
    GameManager.make_decision stB "s1" "a" 11 = ((0, false), stB) := by
  refine ⟨by decide, by decide, ?_⟩
  exact make_decision_not_found stB "s1" "a" 11 (by decide)

theorem get_or_create_user_games (db : Database) (u : Nat) (un : String) (t : Nat) :
    (db.get_or_create_user u un t).games = db.games := by
  unfold Database.get_or_create_user
  cases dget u db.users <;> rfl

theorem get_or_create_user_next (db : Database) (u : Nat) (un : String) (t : Nat) :
    (db.get_or_create_user u un t).next_game_id = db.next_game_id := by
  unfold Database.get_or_create_user
  cases dget u db.users <;> rfl

/-- What `create_game_session` produces when the user already has a live
session: the old session is ended and erased, the fresh session is stored,
and the user mapping moves to the fresh id. -/
theorem create_game_session_supersede (loader : List (String × Character)) (st : SysState)
    (u : Nat) (cid : String) (ch : Nat) (nsid un : String) (t : Nat)
    (c : Character) (oldSid : String) (os : GameSession)
    (hc : dget cid loader = some c)
    (h2 : dget u st.gm.user_sessions = some oldSid)
    (h3 : dget oldSid st.gm.active_sessions = some os)
    (h4 : os.user_id = u)
    (h6 : dget nsid st.gm.active_sessions = none) :
    GameManager.create_game_session loader st u cid ch nsid un t =
      (some (GameSession.init nsid u c st.db.next_game_id ch t),
       { gm :=
          { active_sessions :=
              derase oldSid
                (dset nsid (GameSession.init nsid u c st.db.next_game_id ch t)
                  st.gm.active_sessions),
            user_sessions := dset u nsid (derase u st.gm.user_sessions) },
         db :=
           ((((st.db.get_or_create_user u un t).create_game u cid t).snd.end_session
               oldSid).create_session nsid u st.db.next_game_id ch t) }) := by
  have hne : oldSid ≠ nsid := by
    intro e
    rw [e, h6] at h3
    cases h3
  have hd1 : ∀ v : GameSession,
      dget oldSid (dset nsid v st.gm.active_sessions) = some os := by
    intro v
    rw [dget_dset_ne _ _ hne, h3]
  simp only [GameManager.create_game_session, hc, Database.create_game,
    GameManager.end_game_session, hd1, h2, h4, GameSession.is_completed,
    Bool.false_and, get_or_create_user_next, if_true, if_false,
    Bool.false_eq_true, ite_false, reduceIte]

/-- Claim C3, amended: starting a new session for a user with a live prior
session leaves exactly one live session for that user, removes the prior
session from the live table, leaves the prior durable game row untouched
(so it stays incomplete unless it was already complete), and a subsequent
advance on the old session id is the existence-check no-op returning the
normal result `(0, false)` — the code logs the missing session instead of
raising a typed SessionNotFound. -/
theorem C3_supersede_amended :
    ∀ (loader : List (String × Character)) (st : SysState) (u : Nat) (cid : String)
      (ch : Nat) (nsid un : String) (t : Nat) (c : Character) (oldSid : String)
      (os : GameSession),
      keysNodup st.gm.active_sessions →
      dget cid loader = some c →
      dget u st.gm.user_sessions = some oldSid →
      dget oldSid st.gm.active_sessions = some os →
      os.user_id = u →
      (∀ p ∈ st.gm.active_sessions, p.snd.user_id = u → p.fst = oldSid) →
      dget nsid st.gm.active_sessions = none →
      os.game_id ≠ st.db.next_game_id →
      ((GameManager.create_game_session loader st u cid ch nsid un t).fst
          = some (GameSession.init nsid u c st.db.next_game_id ch t)) ∧
      (dget u
          (GameManager.create_game_session loader st u cid ch nsid un t).snd.gm.user_sessions
          = some nsid) ∧
      (dget oldSid
          (GameManager.create_game_session loader st u cid ch nsid un t).snd.gm.active_sessions
          = none) ∧
      ((GameManager.create_game_session loader st u cid ch nsid un t).snd.gm.active_sessions.countP
          (fun p => decide (p.snd.user_id = u)) = 1) ∧
      (dget os.game_id
          (GameManager.create_game_session loader st u cid ch nsid un t).snd.db.games
          = dget os.game_id st.db.games) ∧
      (∀ (choice : String) (t2 : Nat),
        GameManager.make_decision
            (GameManager.create_game_session loader st u cid ch nsid un t).snd oldSid choice t2
          = ((0, false),
             (GameManager.create_game_session loader st u cid ch nsid un t).snd)) := by
  intro loader st u cid ch nsid un t c oldSid os h1 hc h2 h3 h4 h5 h6 h8
  rw [create_game_session_supersede loader st u cid ch nsid un t c oldSid os hc h2 h3 h4 h6]
  have hgone : dget oldSid
      (derase oldSid (dset nsid (GameSession.init nsid u c st.db.next_game_id ch t)
        st.gm.active_sessions)) = none :=
    dget_derase_self oldSid _ (keysNodup_dset nsid _ _ h1)
  refine ⟨rfl, dget_dset_self u nsid _, hgone, ?_, ?_, ?_⟩
  · have hfresh := dset_eq_append nsid
      (GameSession.init nsid u c st.db.next_game_id ch t) st.gm.active_sessions h6
    have hsplit := derase_append_left st.gm.active_sessions
      [(nsid, GameSession.init nsid u c st.db.next_game_id ch t)] h3
    have hf : (fun p : String × GameSession => decide (p.snd.user_id = u)) (oldSid, os)
        = true := by simp [h4]
    have hone : st.gm.active_sessions.countP
        (fun p => decide (p.snd.user_id = u)) = 1 :=
      countP_eq_one_of_unique _ h1 h3
        (fun p hp hfp => h5 p hp (by simpa using hfp)) hf
    have hdrop := countP_derase
      (fun p : String × GameSession => decide (p.snd.user_id = u)) h3
    rw [hf] at hdrop
    simp only [if_pos rfl, if_pos trivial] at hdrop
    have hzero : (derase oldSid st.gm.active_sessions).countP
        (fun p => decide (p.snd.user_id = u)) = 0 := by omega
    show List.countP _ (derase oldSid (dset nsid _ st.gm.active_sessions)) = 1
    rw [hfresh, hsplit, List.countP_append, hzero]
    simp [GameSession.init]
  · show dget os.game_id
        ((((st.db.get_or_create_user u un t).create_game u cid t).snd.end_session
            oldSid).create_session nsid u st.db.next_game_id ch t).games
        = dget os.game_id st.db.games
    simp only [Database.create_session, Database.end_session, Database.create_game,
      get_or_create_user_games, get_or_create_user_next]
    rw [dget_dset_ne _ _ h8]
  · intro choice t2
    exact make_decision_not_found _ oldSid choice t2 hgone

theorem C3_supersede_amended_witness :
    keysNodup stA.gm.active_sessions ∧
    dget "alice" scenarioLoader = some aliceChar ∧
    dget 7 stA.gm.user_sessions = some "s1" ∧
    dget "s1" stA.gm.active_sessions = some sAlice ∧
    sAlice.user_id = 7 ∧
    dget "s2" stA.gm.active_sessions = none ∧
    sAlice.game_id ≠ stA.db.next_game_id ∧
    ((GameManager.create_game_session scenarioLoader stA 7 "alice" 99 "s2" "u7" 10).fst
        = some (GameSession.init "s2" 7 aliceChar stA.db.next_game_id 99 10)) ∧
    (dget "s1"
        (GameManager.create_game_session scenarioLoader stA 7 "alice" 99 "s2" "u7" 10).snd.gm.active_sessions
        = none) ∧
    ((GameManager.create_game_session scenarioLoader stA 7 "alice" 99 "s2" "u7" 10).snd.gm.active_sessions.countP
        (fun p => decide (p.snd.user_id = 7)) = 1) := by
  have h := C3_supersede_amended scenarioLoader stA 7 "alice" 99 "s2" "u7" 10 aliceChar
    "s1" sAlice (by decide) (by decide) (by decide) (by decide) (by decide)
    (by decide) (by decide) (by decide)
  exact ⟨by decide, by decide, by decide, by decide, by decide, by decide, by decide,
    h.1, h.2.2.1, h.2.2.2.1⟩

/-! ## The decision-index invariant (claim C4) -/

/-- Every live session of a reachable state sits at decision index 1:
creation starts there, and the advance call site passes
`current_decision - 1`, which `GameSession.make_decision` rejects. -/
def InvIdx (st : SysState) : Prop :=
  ∀ p ∈ st.gm.active_sessions, p.snd.current_decision = 1

theorem end_game_session_active_subset {st : SysState} {sid : String} {b : Bool}
    {p : String × GameSession}
    (hm : p ∈ (GameManager.end_game_session st sid b).gm.active_sessions) :
    p ∈ st.gm.active_sessions := by
  unfold GameManager.end_game_session at hm
  cases hg : dget sid st.gm.active_sessions with
  | none => rw [hg] at hm; exact hm
  | some s =>
    rw [hg] at hm
    simp only at hm
    exact mem_derase hm

theorem invIdx_end (st : SysState) (sid : String) (b : Bool) (h : InvIdx st) :
    InvIdx (GameManager.end_game_session st sid b) :=
  fun p hp => h p (end_game_session_active_subset hp)

theorem invIdx_create (L : List (String × Character)) (st : SysState) (u : Nat)
    (cid : String) (ch : Nat) (sid un : String) (t : Nat) (h : InvIdx st) :
    InvIdx (GameManager.create_game_session L st u cid ch sid un t).snd := by
  intro p hp
  unfold GameManager.create_game_session at hp
  cases hc : dget cid L with
  | none => rw [hc] at hp; exact h p hp
  | some c =>
    rw [hc] at hp
    simp only at hp
    cases hgu : dget u st.gm.user_sessions with
    | none =>
      rw [hgu] at hp
      simp only at hp
      rcases mem_dset hp with he | he
      · rw [he]; rfl
      · exact h p he
    | some old =>
      rw [hgu] at hp
      simp only at hp
      cases hgo : dget old (dset sid
          (GameSession.init sid u c
            ((st.db.get_or_create_user u un t).create_game u cid t).fst ch t)
          st.gm.active_sessions) with
      | none =>
        rw [hgo] at hp
        simp only at hp
        rcases mem_dset hp with he | he
        · rw [he]; rfl
        · exact h p he
      | some osess =>
        rw [hgo] at hp
        simp only at hp
        rcases mem_dset (end_game_session_active_subset hp) with he | he
        · rw [he]; rfl
        · exact h p he

theorem invIdx_advance (st : SysState) (sid choice : String) (now : Nat) (h : InvIdx st) :
    InvIdx (GameManager.make_decision st sid choice now).snd := by
  intro p hp
  unfold GameManager.make_decision at hp
  cases hg : dget sid st.gm.active_sessions with
  | none => rw [hg] at hp; exact h p hp
  | some s =>
    rw [hg] at hp
    simp only at hp
    have hs1 : s.current_decision = 1 := h (sid, s) (mem_of_dget hg)
    have hmk : s.make_decision (s.current_decision - 1) choice now = (0, s) := by
      rw [hs1]
      simp [GameSession.make_decision, hs1]
    rw [hmk] at hp
    simp only at hp
    rcases mem_dset hp with he | he
    · rw [he]; exact hs1
    · exact h p he

theorem cleanup_step_state (acc : SysState × List Nat) (sid : String) :
    (GameManager.cleanup_step acc sid).fst = GameManager.end_game_session acc.fst sid false := by
  unfold GameManager.cleanup_step
  cases hg : dget sid (GameManager.end_game_session acc.fst sid false).gm.active_sessions <;>
    simp [hg]

theorem cleanup_fold_state :
    ∀ (R : List String) (st : SysState) (ns : List Nat),
      (R.foldl GameManager.cleanup_step (st, ns)).fst =
        R.foldl (fun s sid => GameManager.end_game_session s sid false) st := by
  intro R
  induction R with
  | nil => intro st ns; rfl
  | cons sid rest ih =>
    intro st ns
    rw [List.foldl_cons, List.foldl_cons]
    calc (rest.foldl GameManager.cleanup_step (GameManager.cleanup_step (st, ns) sid)).fst
        = (rest.foldl GameManager.cleanup_step
            ((GameManager.cleanup_step (st, ns) sid).fst,
             (GameManager.cleanup_step (st, ns) sid).snd)).fst := by rw [Prod.mk.eta]
      _ = (rest.foldl GameManager.cleanup_step
            (GameManager.end_game_session st sid false,
             (GameManager.cleanup_step (st, ns) sid).snd)).fst := by
            rw [cleanup_step_state (st, ns) sid]
      _ = rest.foldl (fun s sid2 => GameManager.end_game_session s sid2 false)
            (GameManager.end_game_session st sid false) := ih _ _

theorem invIdx_fold_end :
    ∀ (R : List String) (st : SysState), InvIdx st →
      InvIdx (R.foldl (fun s sid => GameManager.end_game_session s sid false) st) := by
  intro R
  induction R with
  | nil => intro st h; exact h
  | cons sid rest ih =>
    intro st h
    rw [List.foldl_cons]
    exact ih _ (invIdx_end st sid false h)

theorem invIdx_sweep (st : SysState) (now : Nat) (h : InvIdx st) :
    InvIdx (GameManager.cleanup_old_sessions st now).fst := by
  unfold GameManager.cleanup_old_sessions
  rw [cleanup_fold_state]
  exact invIdx_fold_end _ st h

theorem invIdx_step (L : List (String × Character)) (st : SysState) (op : EngineOp)
    (h : InvIdx st) : InvIdx (step L st op) := by
  cases op with
  | start u cid ch sid un now => exact invIdx_create L st u cid ch sid un now h
  | advance sid choice now => exact invIdx_advance st sid choice now h
  | finish sid completed => exact invIdx_end st sid completed h
  | sweep now => exact invIdx_sweep st now h

theorem invIdx_run (L : List (String × Character)) (ops : List EngineOp) :
    InvIdx (run L ops) := by
  have hgen : ∀ (os : List EngineOp) (st : SysState), InvIdx st →
      InvIdx (os.foldl (step L) st) := by
    intro os
    induction os with
    | nil => intro st h; exact h
    | cons op rest ih =>
      intro st h
      rw [List.foldl_cons]
      exact ih _ (invIdx_step L st op h)
  exact hgen ops initState (fun p hp => absurd hp (List.not_mem_nil p))

/-- Claim C4: every live session of every state reachable by engine
operations has its index inside `[1, totalDecisions + 1]` (in fact pinned
at 1, since the advance call site never moves it); a session created by
`create_game_session` starts at index 1; `is_completed` holds exactly when
the index exceeds the total; and across any further engine operation a
surviving session's index never decreases. -/
theorem C4_index_invariant :
    ∀ (loader : List (String × Character)) (ops : List EngineOp),
      (∀ p ∈ (run loader ops).gm.active_sessions,
          1 ≤ p.snd.current_decision ∧
          p.snd.current_decision ≤ p.snd.character.get_total_decisions + 1) ∧
      (∀ s : GameSession,
          s.is_completed = true ↔ s.character.get_total_decisions < s.current_decision) ∧
      (∀ (L2 : List (String × Character)) (st : SysState) (u : Nat) (cid : String)
          (ch : Nat) (sid un : String) (t : Nat) (s : GameSession),
          (GameManager.create_game_session L2 st u cid ch sid un t).fst = some s →
          s.current_decision = 1) ∧
      (∀ (op : EngineOp) (sid : String) (s s2 : GameSession),
          dget sid (run loader ops).gm.active_sessions = some s →
          dget sid (step loader (run loader ops) op).gm.active_sessions = some s2 →
          s.current_decision ≤ s2.current_decision) := by
  intro loader ops
  refine ⟨?_, ?_, ?_, ?_⟩
  · intro p hp
    have h1 := invIdx_run loader ops p hp
    rw [h1]
    exact ⟨Nat.le_refl 1, Nat.succ_le_succ (Nat.zero_le _)⟩
  · intro s
    simp [GameSession.is_completed]
  · intro L2 st u cid ch sid un t s hs
    unfold GameManager.create_game_session at hs
    cases hc : dget cid L2 with
    | none => rw [hc] at hs; cases hs
    | some c =>
      rw [hc] at hs
      simp only at hs
      injection hs with hs
      rw [← hs]
      rfl
  · intro op sid s s2 hg hg2
    have h1 : s.current_decision = 1 := invIdx_run loader ops (sid, s) (mem_of_dget hg)
    have h2 : s2.current_decision = 1 :=
      invIdx_step loader (run loader ops) op (invIdx_run loader ops) (sid, s2) (mem_of_dget hg2)
    rw [h1, h2]

theorem C4_index_invariant_witness :
    (("s1", sAlice) ∈ stA.gm.active_sessions) ∧
    (1 ≤ sAlice.current_decision ∧
      sAlice.current_decision ≤ sAlice.character.get_total_decisions + 1) := by
  have h := (C4_index_invariant scenarioLoader [.start 7 "alice" 99 "s1" "u7" 0]).1
    ("s1", sAlice) (by decide)
  exact ⟨by decide, h⟩

/-! ## Completion happens at most once per game (claim C5) -/

theorem mem_derase_and_ne {κ β : Type} [DecidableEq κ] {k : κ} {p : κ × β}
    {l : List (κ × β)} (hn : keysNodup l) (hm : p ∈ derase k l) :
    p ∈ l ∧ p.fst ≠ k := by
  induction l with
  | nil => simp [derase] at hm
  | cons q rest ih =>
    obtain ⟨k2, v2⟩ := q
    simp only [keysNodup, List.map_cons, List.nodup_cons] at hn
    by_cases h2 : k2 = k
    · subst h2
      simp only [derase, if_pos rfl] at hm
      refine ⟨List.mem_cons_of_mem _ hm, ?_⟩
      intro he
      exact hn.1 (he ▸ List.mem_map_of_mem Prod.fst hm)
    · simp only [derase, if_neg h2, List.mem_cons] at hm
      rcases hm with hm | hm
      · exact ⟨by simp [hm], by rw [hm]; exact h2⟩
      · obtain ⟨h3, h4⟩ := ih hn.2 hm
        exact ⟨List.mem_cons_of_mem _ h3, h4⟩

theorem end_session_completions (db : Database) (sid : String) :
    (db.end_session sid).completions = db.completions := rfl

theorem end_session_next (db : Database) (sid : String) :
    (db.end_session sid).next_game_id = db.next_game_id := rfl

theorem record_decision_completions (db : Database) (g n : Nat) (c : String) (sc : Int) :
    (db.record_decision g n c sc).completions = db.completions := rfl

theorem record_decision_next (db : Database) (g n : Nat) (c : String) (sc : Int) :
    (db.record_decision g n c sc).next_game_id = db.next_game_id := rfl

theorem update_session_activity_completions (db : Database) (sid : String) (t : Nat) :
    (db.update_session_activity sid t).completions = db.completions := rfl

theorem update_session_activity_next (db : Database) (sid : String) (t : Nat) :
    (db.update_session_activity sid t).next_game_id = db.next_game_id := rfl

theorem create_session_completions (db : Database) (sid : String) (u g ch t : Nat) :
    (db.create_session sid u g ch t).completions = db.completions := rfl

theorem create_session_next (db : Database) (sid : String) (u g ch t : Nat) :
    (db.create_session sid u g ch t).next_game_id = db.next_game_id := rfl

theorem create_game_fst (db : Database) (u : Nat) (cid : String) (t : Nat) :
    (db.create_game u cid t).fst = db.next_game_id := rfl

theorem create_game_next (db : Database) (u : Nat) (cid : String) (t : Nat) :
    (db.create_game u cid t).snd.next_game_id = db.next_game_id + 1 := rfl

theorem create_game_completions (db : Database) (u : Nat) (cid : String) (t : Nat) :
    (db.create_game u cid t).snd.completions = db.completions := rfl

theorem complete_game_next (db : Database) (g : Nat) :
    (db.complete_game g).next_game_id = db.next_game_id := by
  unfold Database.complete_game
  cases dget g db.games <;> rfl

theorem complete_game_completions (db : Database) (g : Nat) :
    (db.complete_game g).completions = db.completions ++ [g] := by
  unfold Database.complete_game
  cases dget g db.games <;> rfl

theorem get_or_create_user_completions (db : Database) (u : Nat) (un : String) (t : Nat) :
    (db.get_or_create_user u un t).completions = db.completions := by
  unfold Database.get_or_create_user
  cases dget u db.users <;> rfl

/-- `end_game_session` on a live session with `completed := false`:
removes the session, maybe drops the user mapping, deletes the durable
session row, and touches nothing else. -/
theorem end_game_session_found_false (st : SysState) (sid : String) (s : GameSession)
    (hg : dget sid st.gm.active_sessions = some s) :
    GameManager.end_game_session st sid false =
      { gm := { active_sessions := derase sid st.gm.active_sessions,
                user_sessions :=
                  if dget s.user_id st.gm.user_sessions = some sid then
                    derase s.user_id st.gm.user_sessions
                  else st.gm.user_sessions },
        db := st.db.end_session sid } := by
  unfold GameManager.end_game_session
  rw [hg]
  simp

/-- The joint invariant behind claim C5: live session ids are distinct;
every live session sits at index 1, plays a character with at least one
decision, and owns a game id below the allocator that is not in the
completion log; distinct live sessions never share a game id; and the
completion log is duplicate-free with every entry below the allocator. -/
def InvC5 (st : SysState) : Prop :=
  keysNodup st.gm.active_sessions ∧
  (∀ p ∈ st.gm.active_sessions,
      p.snd.current_decision = 1 ∧
      0 < p.snd.character.get_total_decisions ∧
      p.snd.game_id < st.db.next_game_id ∧
      p.snd.game_id ∉ st.db.completions) ∧
  (∀ p ∈ st.gm.active_sessions, ∀ q ∈ st.gm.active_sessions,
      p.snd.game_id = q.snd.game_id → p = q) ∧
  st.db.completions.Nodup ∧
  (∀ g ∈ st.db.completions, g < st.db.next_game_id)

/-- Characters loaded through the validating content store have at least
one decision. -/
def validLoader (L : List (String × Character)) : Prop :=
  ∀ p ∈ L, 0 < p.snd.get_total_decisions

theorem invC5_end (st : SysState) (sid : String) (b : Bool) (h : InvC5 st) :
    InvC5 (GameManager.end_game_session st sid b) := by
  obtain ⟨hk, hs, hinj, hnd, hb⟩ := h
  unfold GameManager.end_game_session
  cases hg : dget sid st.gm.active_sessions with
  | none => exact ⟨hk, hs, hinj, hnd, hb⟩
  | some s =>
    simp only
    obtain ⟨hidx, htot, hglt, hgnc⟩ := hs (sid, s) (mem_of_dget hg)
    simp only at hidx htot hglt hgnc
    have hic : s.is_completed = false := by
      simp only [GameSession.is_completed, decide_eq_false_iff_not, not_lt]
      omega
    rw [hic]
    simp only [Bool.not_false, Bool.and_true]
    cases b with
    | false =>
      simp only [Bool.false_eq_true, if_false, ite_false]
      refine ⟨keysNodup_derase sid _ hk, ?_, ?_, hnd, hb⟩
      · intro p hp
        obtain ⟨hpm, hpne⟩ := mem_derase_and_ne hk hp
        obtain ⟨h1, h2, h3, h4⟩ := hs p hpm
        exact ⟨h1, h2, h3, h4⟩
      · intro p hp q hq
        exact hinj p (mem_derase_and_ne hk hp).1 q (mem_derase_and_ne hk hq).1
    | true =>
      simp only [if_true, ite_true]
      refine ⟨keysNodup_derase sid _ hk, ?_, ?_, ?_, ?_⟩
      · intro p hp
        obtain ⟨hpm, hpne⟩ := mem_derase_and_ne hk hp
        obtain ⟨h1, h2, h3, h4⟩ := hs p hpm
        have hne : p.snd.game_id ≠ s.game_id := by
          intro he
          have := hinj p hpm (sid, s) (mem_of_dget hg) he
          exact hpne (by rw [this])
        refine ⟨h1, h2, ?_, ?_⟩
        · rw [end_session_next, complete_game_next]
          exact h3
        · rw [end_session_completions, complete_game_completions]
          simp only [List.mem_append, List.mem_singleton]
          rintro (hc | hc)
          · exact h4 hc
          · exact hne hc
      · intro p hp q hq
        exact hinj p (mem_derase_and_ne hk hp).1 q (mem_derase_and_ne hk hq).1
      · rw [end_session_completions, complete_game_completions]
        refine List.Nodup.append hnd (List.nodup_singleton _) ?_
        intro x hx hx2
        simp only [List.mem_singleton] at hx2
        subst hx2
        exact hgnc hx
      · rw [end_session_completions, complete_game_completions, end_session_next,
          complete_game_next]
        intro g hgm
        simp only [List.mem_append, List.mem_singleton] at hgm
        rcases hgm with hgm | hgm
        · exact hb g hgm
        · subst hgm
          exact hglt

theorem invC5_create_aux (st : SysState) (sid : String) (ses : GameSession)
    (active2 : List (String × GameSession)) (us2 : List (Nat × String)) (db2 : Database)
    (hsub : ∀ p ∈ active2, p = (sid, ses) ∨ p ∈ st.gm.active_sessions)
    (hkn : keysNodup active2)
    (hses_idx : ses.current_decision = 1)
    (hses_tot : 0 < ses.character.get_total_decisions)
    (hses_game : ses.game_id = st.db.next_game_id)
    (hnext : db2.next_game_id = st.db.next_game_id + 1)
    (hcomp : db2.completions = st.db.completions)
    (h : InvC5 st) :
    InvC5 { gm := { active_sessions := active2, user_sessions := us2 }, db := db2 } := by
  obtain ⟨hk, hs, hinj, hnd, hb⟩ := h
  refine ⟨hkn, ?_, ?_, ?_, ?_⟩
  · intro p hp
    rcases hsub p hp with he | hm
    · subst he
      refine ⟨hses_idx, hses_tot, ?_, ?_⟩
      · simp only [hses_game, hnext]
        omega
      · simp only [hses_game, hcomp]
        intro hin
        exact absurd (hb _ hin) (lt_irrefl _)
    · obtain ⟨h1, h2, h3, h4⟩ := hs p hm
      refine ⟨h1, h2, ?_, ?_⟩
      · simp only [hnext]
        omega
      · simp only [hcomp]
        exact h4
  · intro p hp q hq he
    rcases hsub p hp with hep | hmp <;> rcases hsub q hq with heq | hmq
    · rw [hep, heq]
    · exfalso
      have hq3 := (hs q hmq).2.2.1
      rw [hep] at he
      simp only at he
      rw [hses_game] at he
      omega
    · exfalso
      have hp3 := (hs p hmp).2.2.1
      rw [heq] at he
      simp only at he
      rw [hses_game] at he
      omega
    · exact hinj p hmp q hmq he
  · simp only [hcomp]
    exact hnd
  · intro g hg
    simp only [hcomp] at hg
    simp only [hnext]
    exact Nat.lt_succ_of_lt (hb g hg)

theorem invC5_create (L : List (String × Character)) (st : SysState) (u : Nat)
    (cid : String) (ch : Nat) (sid un : String) (t : Nat)
    (hL : validLoader L) (h : InvC5 st) :
    InvC5 (GameManager.create_game_session L st u cid ch sid un t).snd := by
  unfold GameManager.create_game_session
  cases hc : dget cid L with
  | none => exact h
  | some c =>
    simp only
    have hses_idx : (GameSession.init sid u c
        ((st.db.get_or_create_user u un t).create_game u cid t).fst ch t).current_decision
        = 1 := rfl
    have hses_tot : 0 < (GameSession.init sid u c
        ((st.db.get_or_create_user u un t).create_game u cid t).fst ch
        t).character.get_total_decisions :=
      hL (cid, c) (mem_of_dget hc)
    have hses_game : (GameSession.init sid u c
        ((st.db.get_or_create_user u un t).create_game u cid t).fst ch t).game_id
        = st.db.next_game_id := by
      show ((st.db.get_or_create_user u un t).create_game u cid t).fst = st.db.next_game_id
      rw [create_game_fst, get_or_create_user_next]
    cases hgu : dget u st.gm.user_sessions with
    | none =>
      simp only
      refine invC5_create_aux st sid _ _ _ _
        (fun p hp => mem_dset hp) (keysNodup_dset _ _ _ h.1)
        hses_idx hses_tot hses_game ?_ ?_ h
      · rw [create_session_next, create_game_next, get_or_create_user_next]
      · rw [create_session_completions, create_game_completions,
          get_or_create_user_completions]
    | some old =>
      simp only
      cases hgo : dget old (dset sid
          (GameSession.init sid u c
            ((st.db.get_or_create_user u un t).create_game u cid t).fst ch t)
          st.gm.active_sessions) with
      | none =>
        simp only
        refine invC5_create_aux st sid _ _ _ _
          (fun p hp => mem_dset hp) (keysNodup_dset _ _ _ h.1)
          hses_idx hses_tot hses_game ?_ ?_ h
        · rw [create_session_next, create_game_next, get_or_create_user_next]
        · rw [create_session_completions, create_game_completions,
            get_or_create_user_completions]
      | some osess =>
        rw [end_game_session_found_false _ old osess hgo]
        simp only
        refine invC5_create_aux st sid _ _ _ _
          (fun p hp => mem_dset (mem_derase hp))
          (keysNodup_derase _ _ (keysNodup_dset _ _ _ h.1))
          hses_idx hses_tot hses_game ?_ ?_ h
        · rw [create_session_next, end_session_next, create_game_next,
            get_or_create_user_next]
        · rw [create_session_completions, end_session_completions,
            create_game_completions, get_or_create_user_completions]

theorem invC5_advance (st : SysState) (sid choice : String) (now : Nat) (h : InvC5 st) :
    InvC5 (GameManager.make_decision st sid choice now).snd := by
  obtain ⟨hk, hs, hinj, hnd, hb⟩ := h
  unfold GameManager.make_decision
  cases hg : dget sid st.gm.active_sessions with
  | none => exact ⟨hk, hs, hinj, hnd, hb⟩
  | some s =>
    simp only
    obtain ⟨hidx, htot, hglt, hgnc⟩ := hs (sid, s) (mem_of_dget hg)
    simp only at hidx htot hglt hgnc
    have hmk : s.make_decision (s.current_decision - 1) choice now = (0, s) := by
      rw [hidx]
      simp [GameSession.make_decision, hidx]
    rw [hmk]
    simp only
    have hic : s.is_completed = false := by
      simp only [GameSession.is_completed, decide_eq_false_iff_not, not_lt]
      omega
    rw [hic]
    simp only [Bool.false_eq_true, if_false, ite_false]
    rw [dset_eq_self hg]
    refine ⟨hk, ?_, hinj, ?_, ?_⟩
    · intro p hp
      obtain ⟨h1, h2, h3, h4⟩ := hs p hp
      refine ⟨h1, h2, ?_, ?_⟩
      · rw [update_session_activity_next, record_decision_next]
        exact h3
      · rw [update_session_activity_completions, record_decision_completions]
        exact h4
    · rw [update_session_activity_completions, record_decision_completions]
      exact hnd
    · intro g hg2
      rw [update_session_activity_completions, record_decision_completions] at hg2
      rw [update_session_activity_next, record_decision_next]
      exact hb g hg2

theorem invC5_fold_end :
    ∀ (R : List String) (st : SysState), InvC5 st →
      InvC5 (R.foldl (fun s sid => GameManager.end_game_session s sid false) st) := by
  intro R
  induction R with
  | nil => intro st h; exact h
  | cons sid rest ih =>
    intro st h
    rw [List.foldl_cons]
    exact ih _ (invC5_end st sid false h)

theorem invC5_sweep (st : SysState) (now : Nat) (h : InvC5 st) :
    InvC5 (GameManager.cleanup_old_sessions st now).fst := by
  unfold GameManager.cleanup_old_sessions
  rw [cleanup_fold_state]
  exact invC5_fold_end _ st h

theorem invC5_step (L : List (String × Character)) (st : SysState) (op : EngineOp)
    (hL : validLoader L) (h : InvC5 st) : InvC5 (step L st op) := by
  cases op with
  | start u cid ch sid un now => exact invC5_create L st u cid ch sid un now hL h
  | advance sid choice now => exact invC5_advance st sid choice now h
  | finish sid completed => exact invC5_end st sid completed h
  | sweep now => exact invC5_sweep st now h

theorem invC5_run (L : List (String × Character)) (ops : List EngineOp)
    (hL : validLoader L) : InvC5 (run L ops) := by
  have hinit : InvC5 initState := by
    refine ⟨?_, ?_, ?_, ?_, ?_⟩
    · simp [keysNodup, initState]
    · intro p hp
      exact absurd hp (List.not_mem_nil p)
    · intro p hp
      exact absurd hp (List.not_mem_nil p)
    · exact List.nodup_nil
    · intro g hg
      exact absurd hg (List.not_mem_nil g)
  have hgen : ∀ (os : List EngineOp) (st : SysState), InvC5 st →
      InvC5 (os.foldl (step L) st) := by
    intro os
    induction os with
    | nil => intro st h; exact h
    | cons op rest ih =>
      intro st h
      rw [List.foldl_cons]
      exact ih _ (invC5_step L st op hL h)
  exact hgen ops initState hinit

/-- Claim C5: with content that passed validation (every character has at
least one decision), no live session in any reachable state is ever in the
completed range, so an advance aimed at a session whose index exceeded its
total can only target a removed or unknown id — and such a call is rejected
by the existence check as a scoreless no-op; consequently the durable
`complete_game` is never invoked twice for the same game id (the invocation
log is duplicate-free). -/
theorem C5_complete_game_at_most_once :
    ∀ (loader : List (String × Character)),
      (∀ p ∈ loader, 0 < p.snd.get_total_decisions) →
      ∀ (ops : List EngineOp),
        (run loader ops).db.completions.Nodup ∧
        (∀ p ∈ (run loader ops).gm.active_sessions, p.snd.is_completed = false) ∧
        (∀ (sid choice : String) (t : Nat),
            dget sid (run loader ops).gm.active_sessions = none →
            GameManager.make_decision (run loader ops) sid choice t
              = ((0, false), run loader ops)) := by
  intro loader hL ops
  obtain ⟨hk, hs, hinj, hnd, hb⟩ := invC5_run loader ops hL
  refine ⟨hnd, ?_, ?_⟩
  · intro p hp
    obtain ⟨h1, h2, h3, h4⟩ := hs p hp
    simp only [GameSession.is_completed, decide_eq_false_iff_not, not_lt]
    omega
  · intro sid choice t hg
    exact make_decision_not_found _ sid choice t hg

theorem C5_complete_game_at_most_once_witness :
    (∀ p ∈ scenarioLoader, 0 < p.snd.get_total_decisions) ∧
    (run scenarioLoader
        [.start 7 "alice" 99 "s1" "u7" 0, .finish "s1" true]).db.completions.Nodup ∧
    GameManager.make_decision
        (run scenarioLoader [.start 7 "alice" 99 "s1" "u7" 0, .finish "s1" true])
        "s1" "a" 5
      = ((0, false),
         run scenarioLoader [.start 7 "alice" 99 "s1" "u7" 0, .finish "s1" true]) := by
  have h := C5_complete_game_at_most_once scenarioLoader (by decide)
    [.start 7 "alice" 99 "s1" "u7" 0, .finish "s1" true]
  exact ⟨by decide, h.1, h.2.2 "s1" "a" 5 (by decide)⟩

/-! ## The analysis computation (claim C8) -/

/-- Maximum of a list of integers, 0 for the empty list. -/
def maxOr0 : List Int → Int
  | [] => 0
  | x :: xs => xs.foldl max x

/-- The scores present among the choices of a decision. -/
def presentScores (d : DecisionDef) : List Int :=
  (d.choices.getD []).filterMap (fun p => p.snd.score)

/-- The per-decision contribution the claim describes: the highest
individual choice score of the decision (score defaulting to 0 when the
key is absent). Written from the claim text, for comparison with the code. -/
def specHighestChoiceScore (d : DecisionDef) : Int :=
  maxOr0 ((d.choices.getD []).map (fun p => p.snd.score.getD 0))

/-- The claimed maxPossibleScore: the sum over all decisions of the
highest individual choice score in that decision. -/
def specMaxPossibleScore (c : Character) : Int :=
  (c.sorted_decisions.map specHighestChoiceScore).sum

/-- The amended per-decision contribution matching the code: the highest
score present among the choices, floored at 0 (missing score keys are
skipped, a choiceless decision contributes 0). -/
def flooredHighestChoiceScore (d : DecisionDef) : Int :=
  max 0 (maxOr0 (presentScores d))

/-- The amended maxPossibleScore. -/
def flooredMaxPossibleScore (c : Character) : Int :=
  (c.sorted_decisions.map flooredHighestChoiceScore).sum

/-- Single-decision character whose only choice has a negative score. -/
def negChar : Character :=
  { id := "neg",
    sorted_decisions :=
      [ { choices := some [("a", ⟨some (-5)⟩)], correct_choice := some "a" } ],
    analysis_templates := { excellent := none, good := none, needs_improvement := none } }

def negSession : GameSession := GameSession.init "n1" 3 negChar 1 99 0

/-- Claim C8, counterexample: on a decision whose only choice scores -5,
the code computes maxPossibleScore 0 (its per-decision running maximum
starts at 0), while the claimed "sum of the highest individual choice
score in each decision" is -5; the two disagree, so the claimed formula is
false of the code. -/
theorem C8_counterexample :
    negSession.get_analysis.max_score = 0 ∧
    specMaxPossibleScore negSession.character = -5 ∧
    negSession.get_analysis.max_score ≠ specMaxPossibleScore negSession.character := by
  refine ⟨by decide, by decide, by decide⟩

theorem ite_gt_eq_max (a b : Int) : (if b > a then b else a) = max a b := by
  rw [max_def]
  split_ifs <;> omega

theorem foldl_max_init (l : List Int) :
    ∀ (a b : Int), List.foldl max (max a b) l = max a (List.foldl max b l) := by
  induction l with
  | nil => intro a b; rfl
  | cons c rest ih =>
    intro a b
    simp only [List.foldl_cons]
    rw [max_assoc, ih]

theorem decisionHighest_eq (cs : List (String × ChoiceData)) :
    decisionHighest cs =
      max 0 (maxOr0 (cs.filterMap (fun p => p.snd.score))) := by
  have hstep : ∀ (l : List (String × ChoiceData)) (a : Int),
      l.foldl
        (fun acc p =>
          match p.snd.score with
          | some sc => if sc > acc then sc else acc
          | none => acc) a
      = List.foldl max a (l.filterMap (fun p => p.snd.score)) := by
    intro l
    induction l with
    | nil => intro a; rfl
    | cons p rest ih =>
      intro a
      obtain ⟨k, cd⟩ := p
      cases hsc : cd.score with
      | none => simp [List.filterMap_cons, hsc, ih]
      | some sc =>
        simp only [List.foldl_cons, List.filterMap_cons, hsc, ih]
        rw [ite_gt_eq_max]
  rw [show decisionHighest cs = cs.foldl
      (fun acc p =>
        match p.snd.score with
        | some sc => if sc > acc then sc else acc
        | none => acc) 0 from rfl]
  rw [hstep]
  cases hl : cs.filterMap (fun p => p.snd.score) with
  | nil => simp [maxOr0]
  | cons x xs =>
    simp only [maxOr0, List.foldl_cons]
    have := foldl_max_init xs 0 x
    rw [← this]

theorem get_decision_lt (c : Character) (i : Nat) (h : i < c.sorted_decisions.length) :
    c.get_decision (i + 1) = c.sorted_decisions.get? i := by
  unfold Character.get_decision
  have h1 : ¬(i + 1 = 0) := by omega
  have h2 : ¬(i + 1 > c.sorted_decisions.length) := by omega
  simp [h1, h2]

/-- The per-index body of the `get_max_possible_score` range loop, with the
per-decision contribution abstracted as `f`. -/
def stepGet {α : Type} (Lst : List α) (f : α → Int) (acc : Int) (i : Nat) : Int :=
  match Lst.get? i with
  | none => acc
  | some d => acc + f d

theorem range_fold_sum {α : Type} (Lst : List α) (f : α → Int) :
    ∀ (a : Int),
      (List.range Lst.length).foldl (stepGet Lst f) a = a + (Lst.map f).sum := by
  induction Lst with
  | nil => intro a; simp [stepGet]
  | cons x xs ih =>
    intro a
    simp only [List.length_cons, List.range_succ_eq_map, List.foldl_cons, List.foldl_map]
    have hhead : stepGet (x :: xs) f a 0 = a + f x := by
      simp [stepGet]
    have hbody : (fun acc i => stepGet (x :: xs) f acc (i + 1)) = stepGet xs f := by
      funext acc i
      simp [stepGet]
    rw [hhead, hbody, ih (a + f x)]
    simp [add_assoc]

theorem max_possible_eq (s : GameSession) :
    s.get_max_possible_score = flooredMaxPossibleScore s.character := by
  unfold GameSession.get_max_possible_score
  have hcong : (List.range s.character.get_total_decisions).foldl
      (fun acc i =>
        match s.character.get_decision (i + 1) with
        | none => acc
        | some d =>
          match d.choices with
          | none => acc
          | some cs => acc + decisionHighest cs) 0
      = (List.range s.character.sorted_decisions.length).foldl
      (stepGet s.character.sorted_decisions flooredHighestChoiceScore) 0 := by
    refine List.foldl_ext _ _ _ ?_
    intro acc i hi
    rw [List.mem_range] at hi
    rw [get_decision_lt s.character i hi]
    unfold stepGet
    cases hgi : s.character.sorted_decisions.get? i with
    | none => rfl
    | some d =>
      simp only
      cases hch : d.choices with
      | none =>
        simp [flooredHighestChoiceScore, presentScores, hch, maxOr0]
      | some cs =>
        simp only [flooredHighestChoiceScore, presentScores, hch, Option.getD_some]
        rw [decisionHighest_eq]
  rw [hcong, range_fold_sum s.character.sorted_decisions flooredHighestChoiceScore 0]
  simp [flooredMaxPossibleScore]

theorem is_correct_choice_eq (c : Character) (n : Nat) (ch : String) :
    c.is_correct_choice n ch
      = decide ((c.get_decision n).bind DecisionDef.correct_choice = some ch) := by
  unfold Character.is_correct_choice
  cases c.get_decision n with
  | none => simp
  | some d =>
    cases hcc : d.correct_choice with
    | none => simp [Option.bind, hcc]
    | some cc => simp [Option.bind, hcc]

/-- Claim C8, amended: `getAnalysis` reports the session score; a
maxPossibleScore equal to the sum over all decisions of the highest score
present among that decision's choices floored at 0 (not the possibly
negative plain maximum); the exact percentage formula with the
division-by-zero guard; the count of recorded decisions matching the
decision's correct choice; the accuracy formula with the zero-decision
guard; and the tier text/principles selected by the 80/60 thresholds with
the built-in default blurbs (empty principles) when the tier template is
missing. -/
theorem C8_analysis_amended :
    ∀ s : GameSession,
      (s.get_analysis).score = s.total_score ∧
      (s.get_analysis).total_decisions = s.character.get_total_decisions ∧
      (s.get_analysis).max_score = flooredMaxPossibleScore s.character ∧
      (s.get_analysis).percentage =
        (if (s.get_analysis).max_score = 0 then 0
         else ((s.total_score : ℚ) / ((s.get_analysis).max_score : ℚ)) * 100) ∧
      (s.get_analysis).correct_decisions =
        s.decisions_made.countP
          (fun p =>
            decide ((s.character.get_decision p.fst).bind DecisionDef.correct_choice
              = some p.snd)) ∧
      (s.get_analysis).accuracy =
        (if s.character.get_total_decisions = 0 then 0
         else (((s.get_analysis).correct_decisions : ℚ)
            / (s.character.get_total_decisions : ℚ)) * 100) ∧
      (80 ≤ (s.get_analysis).percentage →
        (s.get_analysis).text
          = (s.character.analysis_templates.excellent.getD
              ⟨"Excellent performance!", []⟩).text ∧
        (s.get_analysis).principles
          = (s.character.analysis_templates.excellent.getD
              ⟨"Excellent performance!", []⟩).principles) ∧
      ((60 ≤ (s.get_analysis).percentage ∧ (s.get_analysis).percentage < 80) →
        (s.get_analysis).text
          = (s.character.analysis_templates.good.getD
              ⟨"Good performance!", []⟩).text ∧
        (s.get_analysis).principles
          = (s.character.analysis_templates.good.getD
              ⟨"Good performance!", []⟩).principles) ∧
      ((s.get_analysis).percentage < 60 →
        (s.get_analysis).text
          = (s.character.analysis_templates.needs_improvement.getD
              ⟨"Needs improvement.", []⟩).text ∧
        (s.get_analysis).principles
          = (s.character.analysis_templates.needs_improvement.getD
              ⟨"Needs improvement.", []⟩).principles) := by
  intro s
  have hperc : (s.get_analysis).percentage = s.get_score_percentage := rfl
  have hmax : (s.get_analysis).max_score = s.get_max_possible_score := rfl
  refine ⟨rfl, rfl, ?_, ?_, ?_, ?_, ?_, ?_, ?_⟩
  · rw [hmax, max_possible_eq]
  · rw [hperc, hmax]
    rfl
  · show s.decisions_made.countP
        (fun p => s.character.is_correct_choice p.fst p.snd) = _
    have hfun : (fun p : Nat × String => s.character.is_correct_choice p.fst p.snd)
        = (fun p : Nat × String =>
            decide ((s.character.get_decision p.fst).bind DecisionDef.correct_choice
              = some p.snd)) := by
      funext p
      exact is_correct_choice_eq s.character p.fst p.snd
    rw [hfun]
  · show (if s.character.get_total_decisions > 0 then _ else (0 : ℚ)) = _
    rcases Nat.eq_zero_or_pos s.character.get_total_decisions with hz | hpos
    · rw [hz]
      simp
    · rw [if_pos hpos, if_neg (by omega)]
      rfl
  · intro h
    rw [hperc] at h
    have hx : s.character.get_analysis s.get_score_percentage
        = s.character.analysis_templates.excellent.getD ⟨"Excellent performance!", []⟩ := by
      unfold Character.get_analysis
      rw [if_pos h]
    exact ⟨congrArg AnalysisTemplate.text hx, congrArg AnalysisTemplate.principles hx⟩
  · intro h
    rw [hperc] at h
    have hx : s.character.get_analysis s.get_score_percentage
        = s.character.analysis_templates.good.getD ⟨"Good performance!", []⟩ := by
      unfold Character.get_analysis
      rw [if_neg (not_le.mpr h.2), if_pos h.1]
    exact ⟨congrArg AnalysisTemplate.text hx, congrArg AnalysisTemplate.principles hx⟩
  · intro h
    rw [hperc] at h
    have h80 : ¬(s.get_score_percentage ≥ 80) := by
      rw [not_le]
      calc s.get_score_percentage < 60 := h
        _ < 80 := by norm_num
    have hx : s.character.get_analysis s.get_score_percentage
        = s.character.analysis_templates.needs_improvement.getD
            ⟨"Needs improvement.", []⟩ := by
      unfold Character.get_analysis
      rw [if_neg h80, if_neg (not_le.mpr h)]
    exact ⟨congrArg AnalysisTemplate.text hx, congrArg AnalysisTemplate.principles hx⟩

theorem C8_analysis_amended_witness :
    (negSession.get_analysis).percentage < 60 ∧
    (negSession.get_analysis).max_score = flooredMaxPossibleScore negSession.character ∧
    (negSession.get_analysis).text = "Needs improvement." := by
  have h := C8_analysis_amended negSession
  have ht := h.2.2.2.2.2.2.2.2 (by decide)
  refine ⟨by decide, h.2.2.1, ?_⟩
  rw [ht.1]
  rfl

/-! ## Content-store validation (claim C9) -/

/-- The per-decision acceptance conditions, written from the claim text:
the required decision fields are present, the choices mapping is non-empty
and the correct_choice key exists among the choices. -/
def specDecisionOK (dec : RawDecision) : Prop :=
  dec.year.isSome ∧ dec.context.isSome ∧ dec.question.isSome ∧
  dec.choices.isSome ∧
  dec.choices.getD [] ≠ [] ∧
  (∃ cc ∈ (dec.choices.getD []).map Prod.fst, dec.correct_choice = some cc)

/-- The acceptance condition exactly as the claim states it: a missing
analysis_templates key is tolerated. Written from the claim text, for
comparison with the code validator. -/
def claim_accepts (data : RawCharacter) : Prop :=
  data.name.isSome ∧ data.title.isSome ∧ data.starting_year.isSome ∧
  data.initial_capital.isSome ∧ data.key_principles.isSome ∧ data.decisions.isSome ∧
  data.decisions.getD [] ≠ [] ∧
  (∀ p ∈ data.decisions.getD [], specDecisionOK p.snd)

/-- The amended acceptance condition: as the claim, except that the
analysis_templates key must also be present, since it sits in
`config.REQUIRED_CHARACTER_FIELDS`. -/
def accepts_amended (data : RawCharacter) : Prop :=
  data.name.isSome ∧ data.title.isSome ∧ data.starting_year.isSome ∧
  data.initial_capital.isSome ∧ data.key_principles.isSome ∧ data.decisions.isSome ∧
  data.analysis_templates.isSome ∧
  data.decisions.getD [] ≠ [] ∧
  (∀ p ∈ data.decisions.getD [], specDecisionOK p.snd)

/-- A fully well-formed one-decision file carrying an (empty)
analysis_templates mapping. -/
def rawOkFixture : RawCharacter :=
  { name := some "A", title := some "T", starting_year := some 1990,
    initial_capital := some 5, key_principles := some ["k"],
    decisions :=
      some [("1", { year := some 1990, context := some "c", question := some "q",
                    choices := some [("a", { text := some "x", score := some 10 })],
                    correct_choice := some "a" })],
    analysis_templates := some [] }

/-- The same file with the analysis_templates key removed. -/
def rawNoTemplates : RawCharacter := { rawOkFixture with analysis_templates := none }

instance specDecisionOKDecidable (dec : RawDecision) : Decidable (specDecisionOK dec) := by
  unfold specDecisionOK
  infer_instance

instance claimAcceptsDecidable (data : RawCharacter) : Decidable (claim_accepts data) := by
  unfold claim_accepts
  infer_instance

instance acceptsAmendedDecidable (data : RawCharacter) :
    Decidable (accepts_amended data) := by
  unfold accepts_amended
  infer_instance

theorem isEmpty_false_iff {α : Type} (l : List α) : l.isEmpty = false ↔ l ≠ [] := by
  cases l <;> simp

/-- Claim C9, counterexample: a file valid in every other respect but
missing the analysis_templates key satisfies the claimed acceptance
condition, yet the validator rejects it, because analysis_templates is
listed in REQUIRED_CHARACTER_FIELDS; only a present-but-empty
analysis_templates mapping gets the warn-and-accept treatment. -/
theorem C9_counterexample :
    claim_accepts rawNoTemplates ∧
    validate_character rawNoTemplates = false ∧
    validate_character rawOkFixture = true := by
  refine ⟨by decide, by decide, by decide⟩

theorem bind_dget_isSome_iff (dec : RawDecision) :
    (dec.correct_choice.bind (fun cc => dget cc (dec.choices.getD []))).isSome = true ↔
      ∃ cc ∈ (dec.choices.getD []).map Prod.fst, dec.correct_choice = some cc := by
  cases hcc : dec.correct_choice with
  | none => simp [Option.bind]
  | some cc =>
    simp only [Option.bind, Option.some_inj]
    constructor
    · intro h
      refine ⟨cc, ?_, rfl⟩
      cases ho : dget cc (dec.choices.getD []) with
      | none => rw [ho] at h; simp at h
      | some v => exact List.mem_map_of_mem Prod.fst (mem_of_dget ho)
    · rintro ⟨cc2, hmem, heq⟩
      subst heq
      cases ho : dget cc (dec.choices.getD []) with
      | none => exact absurd hmem ((dget_eq_none_iff cc _).mp ho)
      | some v => rfl

theorem validate_decision_iff (dec : RawDecision) :
    validate_decision dec = true ↔ specDecisionOK dec := by
  unfold validate_decision specDecisionOK
  rw [← bind_dget_isSome_iff]
  simp only [Bool.and_eq_true, Bool.not_eq_true', isEmpty_false_iff, ne_eq]
  constructor
  · rintro ⟨⟨⟨⟨⟨⟨h1, h2⟩, h3⟩, h4⟩, h5⟩, h6⟩, h7⟩
    exact ⟨h1, h2, h3, h4, h6, h7⟩
  · rintro ⟨h1, h2, h3, h4, h6, h7⟩
    have h5 : dec.correct_choice.isSome = true := by
      cases hcc : dec.correct_choice with
      | none => rw [hcc] at h7; simp [Option.bind] at h7
      | some cc => rfl
    exact ⟨⟨⟨⟨⟨⟨h1, h2⟩, h3⟩, h4⟩, h5⟩, h6⟩, h7⟩

theorem validate_character_iff (data : RawCharacter) :
    validate_character data = true ↔ accepts_amended data := by
  unfold validate_character required_character_fields_present accepts_amended
  simp only [Bool.and_eq_true, Bool.not_eq_true', isEmpty_false_iff, ne_eq,
    List.all_eq_true, validate_decision_iff]
  tauto

theorem load_fold_eq :
    ∀ (files : List (String × RawCharacter)) (acc : List (String × Character)),
      (∀ p ∈ files, dget p.fst acc = none) →
      (files.map Prod.fst).Nodup →
      files.foldl
        (fun acc2 p =>
          if validate_character p.snd then dset p.fst (mkCharacter p.fst p.snd) acc2
          else acc2)
        acc
      = acc ++ (files.filter (fun p => validate_character p.snd)).map
          (fun p => (p.fst, mkCharacter p.fst p.snd)) := by
  intro files
  induction files with
  | nil => intro acc h1 h2; simp
  | cons q rest ih =>
    intro acc h1 h2
    simp only [List.foldl_cons, List.filter_cons]
    simp only [List.map_cons, List.nodup_cons] at h2
    by_cases hv : validate_character q.snd
    · rw [if_pos hv]
      have hnone : dget q.fst acc = none := h1 q (List.mem_cons_self q rest)
      rw [dset_eq_append _ _ _ hnone]
      have hrest : ∀ p ∈ rest,
          dget p.fst (acc ++ [(q.fst, mkCharacter q.fst q.snd)]) = none := by
        intro p hp
        rw [dget_append_of_none _ _ _ (h1 p (List.mem_cons_of_mem _ hp))]
        have hne : q.fst ≠ p.fst :=
          fun he => h2.1 (he ▸ List.mem_map_of_mem Prod.fst hp)
        simp [dget, hne]
      rw [ih _ hrest h2.2]
      simp [hv, List.append_assoc]
    · rw [if_neg hv]
      rw [ih _ (fun p hp => h1 p (List.mem_cons_of_mem _ hp)) h2.2]
      simp [hv]

/-- Claim C9, amended: the validator accepts a candidate file exactly when
every field of REQUIRED_CHARACTER_FIELDS — analysis_templates included —
is present, decisions is non-empty, every decision carries year, context,
question, choices and correct_choice, every choices mapping is non-empty,
and every correct_choice exists among its choices; a file whose
analysis_templates is present but empty is accepted (with only a warning),
while a file missing the key entirely is rejected; and the loader keeps
exactly the files that validate, each under its own id, so one rejection
never affects the other files. -/
theorem C9_validation_amended :
    (∀ data : RawCharacter, validate_character data = true ↔ accepts_amended data) ∧
    (∀ data : RawCharacter,
        data.analysis_templates = some [] →
        (validate_character data = true ↔ claim_accepts data)) ∧
    (∀ files : List (String × RawCharacter),
        (files.map Prod.fst).Nodup →
        load_all_characters files
          = (files.filter (fun p => validate_character p.snd)).map
              (fun p => (p.fst, mkCharacter p.fst p.snd))) := by
  refine ⟨validate_character_iff, ?_, ?_⟩
  · intro data htempl
    rw [validate_character_iff]
    unfold accepts_amended claim_accepts
    rw [htempl]
    simp only [Option.isSome_some]
    tauto
  · intro files hnd
    unfold load_all_characters
    have h := load_fold_eq files [] (fun p hp => rfl) hnd
    simpa using h

theorem C9_validation_amended_witness :
    (([("alice", rawOkFixture), ("bad", rawNoTemplates)].map Prod.fst).Nodup) ∧
    load_all_characters [("alice", rawOkFixture), ("bad", rawNoTemplates)]
      = [("alice", mkCharacter "alice" rawOkFixture)] := by
  have h := C9_validation_amended.2.2 [("alice", rawOkFixture), ("bad", rawNoTemplates)]
    (by decide)
  refine ⟨by decide, ?_⟩
  rw [h]
  decide

end TMDiscord
